import Mathlib

/-!
Verification development for the NITK virtual-assistant RAG service
(`rag-service/` in the repository).  The Python source is embedded
shallowly: strings are Lean `String`s (internally `List Char`), Python
floats are `ℚ`, dictionaries are association lists, and every function
is a computable Lean `def` translated from the corresponding Python
function.  File-system and network effects are made explicit: the
response-cache directory is a keyed store threaded through the
orchestrator, and the LLM / Perplexity / vector-collection calls are
deterministic functions carried by an environment record.
-/

set_option maxRecDepth 10000

/-! ## Basic character and list utilities -/

/-- Python whitespace test (`str.split`, `str.strip`, regex `\s`). -/
def isWsChar (c : Char) : Bool := c.isWhitespace

/-- Python regex `\w`: alphanumeric or underscore (ASCII model). -/
def isWordChar (c : Char) : Bool := c.isAlphanum || c = '_'

/-- Split a character list at every character satisfying `p`, keeping
empty pieces, as Python `str.split(sep)` does for a one-character
separator. -/
def splitOnP (p : Char → Bool) : List Char → List (List Char)
  | [] => [[]]
  | c :: cs =>
    let r := splitOnP p cs
    if p c then [] :: r
    else
      match r with
      | [] => [[c]]
      | h :: t => (c :: h) :: t

/-- Python `str.split()` with no argument: split on whitespace runs,
dropping empty pieces. -/
def pyWordsL (l : List Char) : List (List Char) :=
  (splitOnP isWsChar l).filter (· ≠ [])

/-- Python `str.strip()` on a character list. -/
def trimL (l : List Char) : List Char :=
  ((l.dropWhile isWsChar).reverse.dropWhile isWsChar).reverse

/-- Python `str.lstrip(ch)` for a single character. -/
def lstripCharL (ch : Char) (l : List Char) : List Char :=
  l.dropWhile (· = ch)

/-- String wrapper for `pyWordsL`. -/
def pyWords (s : String) : List String :=
  (pyWordsL s.data).map String.mk

/-- String wrapper for `trimL` (Python `str.strip()`). -/
def pyStrip (s : String) : String := String.mk (trimL s.data)

/-- Python `str.lower()` (kernel-reducible form of `String.toLower`). -/
def strToLower (s : String) : String := String.mk (s.data.map Char.toLower)

/-- Python `sep.join(parts)` (kernel-reducible form of
`String.intercalate`). -/
def joinSep (sep : String) : List String → String
  | [] => ""
  | [x] => x
  | x :: xs => x ++ sep ++ joinSep sep xs

/-- Boolean prefix test on character lists. -/
def isPrefixB : List Char → List Char → Bool
  | [], _ => true
  | _ :: _, [] => false
  | x :: xs, y :: ys => x = y && isPrefixB xs ys

/-- Boolean infix (substring) test on character lists. -/
def isInfixB (needle : List Char) : List Char → Bool
  | [] => isPrefixB needle []
  | c :: cs => isPrefixB needle (c :: cs) || isInfixB needle cs

/-- Python substring containment `needle in hay`. -/
def pyInStr (needle hay : String) : Bool :=
  isInfixB needle.data hay.data

/-- Concatenation of a list of streamed chunks (`response_text += chunk`). -/
def concatChunks (l : List String) : String :=
  String.mk (l.map String.data).flatten

/-! ## Fuzzy matching (`thefuzz` on its rapidfuzz backend)

`fuzz.ratio` is the normalized InDel similarity: `200 * lcs / (|a| + |b|)`
rounded to an integer with Python `round` (banker's rounding), and 100
when both inputs are empty. -/

/-- Longest common subsequence length. -/
def lcsLen : List Char → List Char → Nat
  | [], _ => 0
  | _ :: _, [] => 0
  | x :: xs, y :: ys =>
    if x = y then lcsLen xs ys + 1
    else max (lcsLen xs (y :: ys)) (lcsLen (x :: xs) ys)
termination_by a b => a.length + b.length

/-- Python `round`: round half to even. -/
def bankersRound (q : ℚ) : ℤ :=
  let f := ⌊q⌋
  let r := q - f
  if r < 1/2 then f
  else if r > 1/2 then f + 1
  else if f % 2 = 0 then f else f + 1

/-- `thefuzz.fuzz.ratio` as a rational in `[0, 100]`. -/
def fuzzRatioQ (a b : List Char) : ℚ :=
  if a.length + b.length = 0 then 100
  else (bankersRound (200 * lcsLen a b / (a.length + b.length)) : ℚ)

/-- rapidfuzz `default_process`: lowercase, replace non-alphanumeric
characters by spaces, strip. -/
def fullProcessL (l : List Char) : List Char :=
  trimL ((l.map Char.toLower).map (fun c => if c.isAlphanum then c else ' '))

/-- Lexicographic comparison of token character lists (Python `sorted`
on strings compares code points). -/
def lexLe : List Char → List Char → Bool
  | [], _ => true
  | _ :: _, [] => false
  | x :: xs, y :: ys =>
    if x = y then lexLe xs ys else decide (x < y)

/-- Insert into a lexicographically sorted token list (stable). -/
def lexInsert (w : List Char) : List (List Char) → List (List Char)
  | [] => [w]
  | v :: vs => if lexLe v w then v :: lexInsert w vs else w :: v :: vs

/-- Stable lexicographic sort of tokens (Python `sorted`). -/
def lexSort : List (List Char) → List (List Char)
  | [] => []
  | w :: ws => lexInsert w (lexSort ws)

/-- `thefuzz.fuzz.token_sort_ratio`: full-process both sides, sort the
tokens, join with single spaces, then `fuzz.ratio`. -/
def tokenSortRatioQ (a b : String) : ℚ :=
  let norm := fun (s : String) =>
    List.intercalate [' '] (lexSort (pyWordsL (fullProcessL s.data)))
  fuzzRatioQ (norm a) (norm b)

/-! ## `text_processing.py` — TextProcessor -/

/-- `TextProcessor.stop_words`. -/
def stopWords : List String :=
  ["the", "a", "an", "and", "or", "but", "in", "on", "at", "to", "for"]

/-- `re.sub(r'[^\w\s]', '', term)` applied to a single token. -/
def stripNonWordL (l : List Char) : List Char :=
  l.filter (fun c => isWordChar c || isWsChar c)

/-- `TextProcessor.extract_search_terms`: lowercase, split on
whitespace, strip punctuation per token, drop empties and stopwords. -/
def extractSearchTerms (text : String) : List String :=
  (pyWordsL (text.data.map Char.toLower)).filterMap (fun t =>
    let t := stripNonWordL t
    if t ≠ [] && !(stopWords.contains (String.mk t)) then some (String.mk t)
    else none)

/-- `TextProcessor.calculate_term_overlap`: fraction of query terms
appearing among the document terms (0 when the query has none). -/
def calculateTermOverlap (queryTerms : List String) (document : String) : ℚ :=
  let docTerms := extractSearchTerms document
  let matchCount := (queryTerms.filter (fun t => docTerms.contains t)).length
  if queryTerms = [] then 0 else (matchCount : ℚ) / (queryTerms.length : ℚ)

/-! ## `entities.py` — PersonsData, NameMatcher, EntityExtractor -/

/-- One extracted entity, the `{"text": ..., "label": ...}` dictionaries
built by `EntityExtractor`. -/
structure Entity where
  text : String
  label : String
deriving DecidableEq, Repr

/-- The curated persons data.  `standardize` models
`PersonsData.standardize_name` (transliteration lookup, whitespace
collapse, rewriting of initial clusters, and the `name_formats` regex
rules); it is data-dependent, loaded from `persons.json` at startup, so
the embedding carries it as a function. -/
structure PersonsData where
  personsLower : List String
  standardize : String → String

/-- `PersonsData.is_known_person`. -/
def isKnownPerson (pd : PersonsData) (name : String) : Bool :=
  let std := strToLower (pd.standardize name)
  pd.personsLower.contains std ||
    pd.personsLower.any (fun known => fuzzRatioQ std.data known.data > 90)

/-- `NameMatcher.normalize_name`: standardize, lowercase, then remove
characters outside `\w` and `\s`. -/
def normalizeName (pd : PersonsData) (name : String) : String :=
  String.mk (stripNonWordL (strToLower (pd.standardize name)).data)

/-- `NameMatcher._compute_part_similarity` with the configured
`INITIAL_WEIGHT` and `EXACT_WEIGHT`. -/
def computePartSimilarity (iw ew : ℚ) (p1 p2 : String) : ℚ :=
  if p1 = "" ∨ p2 = "" then 0
  else if p1 = p2 then 1
  else if p1.data.head? = p2.data.head? ∧ (p1.length = 1 ∨ p2.length = 1) then iw
  else fuzzRatioQ p1.data p2.data / 100 * ew

/-- Positional similarity used by `name_similarity`: 0 past the end of
either parts list, else the part similarity at that index. -/
def posSim (iw ew : ℚ) (parts1 parts2 : List String) (i : Nat) : ℚ :=
  match parts1[i]?, parts2[i]? with
  | some p, some q => computePartSimilarity iw ew p q
  | _, _ => 0

/-- `NameMatcher.name_similarity`. -/
def nameSimilarity (pd : PersonsData) (iw ew : ℚ) (name1 name2 : String) : ℚ :=
  if name1 = "" ∨ name2 = "" then 0
  else
    let n1 := normalizeName pd name1
    let n2 := normalizeName pd name2
    if n1 = n2 then 100
    else
      let parts1 := pyWords n1
      let parts2 := pyWords n2
      if parts1 = [] ∨ parts2 = [] then 0
      else
        let m := max parts1.length parts2.length
        let sims := (List.range m).map (posSim iw ew parts1 parts2)
        let weights := (List.range sims.length).map
          (fun i => if i = 0 ∨ i = sims.length - 1 then (6/5 : ℚ) else 1)
        let weightedSum := ((sims.zip weights).map (fun p => p.1 * p.2)).sum
        let finalScore := weightedSum / weights.sum * 100
        let finalScore :=
          if isKnownPerson pd name1 ∨ isKnownPerson pd name2 then
            finalScore * (11/10)
          else finalScore
        min finalScore 100

/-- The four entity catalogues loaded by `EntityExtractor._load_entities`
(`LOCATION` is already flattened across its sub-categories).  Lists keep
the iteration order of the loaded sets. -/
structure Catalogues where
  persons : List String
  organizations : List String
  locations : List String
  events : List String

/-- `self.entities.items()` in dictionary insertion order. -/
def cataloguePairs (cat : Catalogues) : List (String × List String) :=
  [("PERSON", cat.persons), ("ORGANIZATION", cat.organizations),
   ("LOCATION", cat.locations), ("EVENT", cat.events)]

/-- Category lookup `self.entities[entity_type]`. -/
def entitiesOf (cat : Catalogues) (label : String) : List String :=
  if label = "PERSON" then cat.persons
  else if label = "ORGANIZATION" then cat.organizations
  else if label = "LOCATION" then cat.locations
  else if label = "EVENT" then cat.events
  else []

/-- Everything `EntityExtractor` owns: catalogues plus the persons data
and name-matcher weights used on the PERSON path. -/
structure ExtractorCfg where
  cat : Catalogues
  pd : PersonsData
  iw : ℚ
  ew : ℚ

/-- The PERSON arm of `_get_best_match`: `max(..., key=name_similarity)`
keeps the first maximal element of the iteration order. -/
def bestPersonMatch (x : ExtractorCfg) (textLower : String) :
    Option (String × ℚ) :=
  (entitiesOf x.cat "PERSON").foldl
    (fun acc e =>
      let s := nameSimilarity x.pd x.iw x.ew textLower e
      match acc with
      | none => some (e, s)
      | some (_, bs) => if s > bs then some (e, s) else acc)
    none

/-- The non-PERSON scoring loop of `_get_best_match`, with its early
break once a score reaches 0.9. -/
def bestNonPersonLoop (textLower : String) :
    List String → ℚ → Option String → ℚ × Option String
  | [], bs, bm => (bs, bm)
  | e :: rest, bs, bm =>
    let score := tokenSortRatioQ textLower (strToLower e) / 100
    let (bs, bm) := if score > bs then (score, some e) else (bs, bm)
    if score ≥ 9/10 then (bs, bm)
    else bestNonPersonLoop textLower rest bs bm

/-- `EntityExtractor._get_best_match`. -/
def getBestMatch (x : ExtractorCfg) (textLower : String) (entityType : String) :
    Option Entity :=
  if textLower = "" ∨ entitiesOf x.cat entityType = [] then none
  else if entityType = "PERSON" then
    match bestPersonMatch x textLower with
    | none => none
    | some (best, _) =>
      let score := nameSimilarity x.pd x.iw x.ew textLower best / 100
      if score ≥ 8/10 then some ⟨best, entityType⟩ else none
  else
    let entries := entitiesOf x.cat entityType
    if entries.any (fun e => strToLower e = textLower) then
      match entries.find? (fun e => strToLower e = textLower) with
      | some e => some ⟨e, entityType⟩
      | none => none
    else
      let (bestScore, bestMatch) := bestNonPersonLoop textLower entries 0 none
      if bestScore ≥ 8/10 then
        match bestMatch with
        | some e => some ⟨e, entityType⟩
        | none => none
      else none

/-- `match.get('confidence', 0)`: `_get_best_match` never sets a
`confidence` key on the dictionaries it returns, so the lookup always
yields the default 0. -/
def matchConfidence (_ : Entity) : ℚ := 0

/-- Worker for `chunksOf5`: `cap` words of the current group remain,
`cur` holds the group collected so far (reversed). -/
def chunksOf5Go (cap : Nat) (cur : List String) : List String → List String
  | [] => if cur.isEmpty then [] else [joinSep " " cur.reverse]
  | w :: ws =>
    if cap = 0 then
      joinSep " " cur.reverse :: chunksOf5Go 4 [w] ws
    else chunksOf5Go (cap - 1) (w :: cur) ws

/-- `' '.join(text_parts[i:i+5])` chunking of `extract_entities`:
successive groups of five tokens. -/
def chunksOf5 (parts : List String) : List String := chunksOf5Go 5 [] parts

/-- The high-confidence non-PERSON scan over chunks (with the `seen`
set that skips duplicate chunks). -/
def nonPersonChunkScan (x : ExtractorCfg) :
    List String → List String → Option Entity
  | [], _ => none
  | chunk :: rest, seen =>
    if seen.contains chunk then nonPersonChunkScan x rest seen
    else
      let seen := chunk :: seen
      let chunkLower := strToLower chunk
      let hit := (cataloguePairs x.cat).findSome? (fun p =>
        if p.1 = "PERSON" then none
        else
          match getBestMatch x chunkLower p.1 with
          | some m => if matchConfidence m > 9/10 then some m else none
          | none => none)
      match hit with
      | some m => some m
      | none => nonPersonChunkScan x rest seen

/-- The trailing PERSON scan over chunks. -/
def personChunkScan (x : ExtractorCfg) : List String → Option Entity
  | [] => none
  | chunk :: rest =>
    let chunkLower := strToLower chunk
    if chunkLower = "" then personChunkScan x rest
    else
      match getBestMatch x chunkLower "PERSON" with
      | some m => some m
      | none => personChunkScan x rest

/-- `EntityExtractor.extract_entities`. -/
def extractEntities (x : ExtractorCfg) (text : String) : List Entity :=
  let textLower := strToLower (pyStrip text)
  let exact := (cataloguePairs x.cat).findSome? (fun p =>
    if p.2.any (fun e => strToLower e = textLower) then
      (p.2.find? (fun e => strToLower e = textLower)).map (⟨·, p.1⟩)
    else none)
  match exact with
  | some m => [m]
  | none =>
    let chunks := chunksOf5 (pyWords (pyStrip text))
    match nonPersonChunkScan x chunks [] with
    | some m => [m]
    | none =>
      match personChunkScan x chunks with
      | some m => [m]
      | none => []

/-! ## `temporal_detector.py` — TemporalDetector -/

/-- `Config.temporal_keywords`. -/
def temporalKeywords : List String :=
  ["latest", "recent", "current", "new", "now", "today", "this year"]

/-- `Config.status_keywords`. -/
def statusKeywords : List String :=
  ["updates", "announcements", "changes", "progress", "news"]

/-- `Config.relative_time_keywords`. -/
def relativeTimeKeywords : List String :=
  ["last month", "past year", "recently announced"]

/-- Regex `\b<kw>\b` matching at position `i` of `text`: the keyword
occurs there and both ends sit on word boundaries. -/
def wordBoundedAt (text kw : List Char) (i : Nat) : Bool :=
  isPrefixB kw (text.drop i) &&
  (decide (i = 0) || !(isWordChar ((text.take i).getLast?.getD ' '))) &&
  (decide (i + kw.length ≥ text.length) ||
    !(isWordChar ((text.drop (i + kw.length)).head?.getD ' ')))

/-- Regex search for `\b<kw>\b` anywhere in `text`. -/
def hasWordBounded (text kw : List Char) : Bool :=
  (List.range (text.length + 1)).any (wordBoundedAt text kw)

/-- `TemporalDetector._has_temporal_keywords`: the combined
case-insensitive pattern over all three keyword lists (the query is
already lowercased by the caller and every keyword is lowercase). -/
def hasTemporalKeywords (query : String) : Bool :=
  (temporalKeywords ++ statusKeywords ++ relativeTimeKeywords).any
    (fun kw => hasWordBounded query.data kw.data)

/-- The year regex `\b(20\d\d)\b` matching at position `i`, returning
the year value. -/
def yearAt (text : List Char) (i : Nat) : Option Int :=
  let four := (text.drop i).take 4
  match four with
  | [a, b, c, d] =>
    if a = '2' ∧ b = '0' ∧ c.isDigit ∧ d.isDigit ∧
        (i = 0 ∨ !(isWordChar ((text.take i).getLast?.getD ' '))) ∧
        (i + 4 ≥ text.length ∨ !(isWordChar ((text.drop (i + 4)).head?.getD ' '))) then
      some (2000 + 10 * (c.toNat - 48) + (d.toNat - 48))
    else none
  | _ => none

/-- `TemporalDetector._has_recent_years` with the process-startup
`current_year` and the configured `current_year_range`. -/
def hasRecentYears (currentYear yearRange : Int) (query : String) : Bool :=
  (List.range (query.data.length + 1)).any (fun i =>
    match yearAt query.data i with
    | some y => decide (currentYear - yearRange ≤ y ∧ y ≤ currentYear + yearRange)
    | none => false)

/-- `TemporalDetector.needs_current_info`. -/
def needsCurrentInfo (currentYear yearRange : Int) (query : String) : Bool :=
  hasTemporalKeywords (strToLower (pyStrip query)) || hasRecentYears currentYear yearRange query

/-! ## `config.py` — the scoring parameters of `Config` -/

/-- The scoring fields of the `Config` dataclass. -/
structure ScoreConfig where
  PERSON_BOOST : ℚ
  ORG_BOOST : ℚ
  LOCATION_BOOST : ℚ
  EVENT_BOOST : ℚ
  ENTITY_BOOST : ℚ
  EXACT_MATCH_BOOST : ℚ
  HASHTAG_BOOST : ℚ
  MENTION_BOOST : ℚ
  MIN_RELEVANCE_SCORE : ℚ
  MIN_TERM_MATCH : ℚ
  NAME_MATCH_THRESHOLD : ℚ
  DEFAULT_RESULTS : Nat

/-- The defaults of `Config`. -/
def defaultScoreConfig : ScoreConfig where
  PERSON_BOOST := 3/20
  ORG_BOOST := 1/10
  LOCATION_BOOST := 2/25
  EVENT_BOOST := 2/25
  ENTITY_BOOST := 1/10
  EXACT_MATCH_BOOST := 3/20
  HASHTAG_BOOST := 1/50
  MENTION_BOOST := 1/50
  MIN_RELEVANCE_SCORE := 1/4
  MIN_TERM_MATCH := 7/10
  NAME_MATCH_THRESHOLD := 80
  DEFAULT_RESULTS := 5

/-- `getattr(self.config, f'{ent_type}_BOOST', 0.1)`.  `Config` has no
`ORGANIZATION_BOOST` attribute (only `ORG_BOOST`), so an ORGANIZATION
entity falls back to the literal default `0.1`, as does any other
unknown label. -/
def typeBoost (cfg : ScoreConfig) (label : String) : ℚ :=
  if label = "PERSON" then cfg.PERSON_BOOST
  else if label = "LOCATION" then cfg.LOCATION_BOOST
  else if label = "EVENT" then cfg.EVENT_BOOST
  else 1/10

/-! ## `scoring_service.py` — ScoringService -/

/-- The metadata keys `calculate_scores` reads after
`_decode_metadata`.  `none` models an empty metadata dictionary (falsy
in `if metadata:`); absent keys default to `''` / `[]` via `.get`. -/
structure MetaRec where
  text : String
  hashtags : List String
  mentions : List String
deriving DecidableEq, Repr

/-- Python membership `s in l` where `l` is the *list* of entity
dictionaries returned by `extract_entities`: comparing a string with a
dictionary is always `False`, so the test never succeeds.
(`calculate_scores` receives that list where it expects a
label-indexed dictionary.) -/
def strMemEntities (_s : String) (_l : List Entity) : Bool := false

/-- `ScoringService._calculate_metadata_boost` (the returned
human-readable reason strings are not modelled). -/
def calculateMetadataBoost (cfg : ScoreConfig) (m : MetaRec) (queryText : String) : ℚ :=
  let queryTerms := (pyWords queryText).map strToLower
  let hashtags := m.hashtags.map (fun t => String.mk (lstripCharL '#' (strToLower t).data))
  let mentions := m.mentions.map (fun t => String.mk (lstripCharL '@' (strToLower t).data))
  let relevantHashtags :=
    (hashtags.filter (fun tag => queryTerms.any (fun term => pyInStr term tag))).length
  let relevantMentions :=
    (mentions.filter (fun mention => queryTerms.any (fun term => pyInStr term mention))).length
  (if relevantHashtags ≠ 0 then (relevantHashtags : ℚ) * cfg.HASHTAG_BOOST else 0) +
  (if relevantMentions ≠ 0 then (relevantMentions : ℚ) * cfg.MENTION_BOOST else 0)

/-- `ScoringService._calculate_entity_boost`.  Every query entity
carries a `label`, so the `isinstance`/missing-key guard never skips.
Without `exact_match` the `ent_type not in doc_entities` test is a
string-vs-dictionary membership over a list (`strMemEntities`) and
always fails, so only the `exact_match` arm can add a boost
(the indexing `doc_entities[ent_type]` behind the failing test would
raise and is unreachable). -/
def calculateEntityBoost (cfg : ScoreConfig) (queryEntities : List Entity)
    (docEntities : List Entity) (exactMatch : Bool) : ℚ :=
  queryEntities.foldl (fun boost qe =>
    if exactMatch then boost + typeBoost cfg qe.label
    else if !(strMemEntities qe.label docEntities) then boost
    else boost) 0

/-- `ScoringService._calculate_person_boost`.  The guard
`'PERSON' not in doc_entities` is again a string-vs-dictionary
membership over a list and always sends the function home with 0
(the body behind it would raise on `doc_entities['PERSON']` and is
unreachable). -/
def calculatePersonBoost (_cfg : ScoreConfig) (queryEntities : List Entity)
    (docEntities : List Entity) : ℚ :=
  let queryPersons := queryEntities.filter (fun e => e.label = "PERSON")
  if queryPersons = [] ∨ !(strMemEntities "PERSON" docEntities) then 0
  else 0

/-- The score breakdown dictionary returned by `calculate_scores`
(reason strings omitted). -/
structure ScoreBreakdown where
  initial_score : ℚ
  term_boost : ℚ
  metadata_boost : ℚ
  entity_boost : ℚ
  person_boost : ℚ
  final_score : ℚ
deriving DecidableEq, Repr

/-- `ScoringService.calculate_scores`. -/
def calculateScores (cfg : ScoreConfig) (initialDistance : ℚ)
    (queryTerms : List String) (queryText : String) (queryEntity : Option Entity)
    (docEntities : List Entity) (metadata : Option MetaRec)
    (exactMatch : Bool) : ScoreBreakdown :=
  let initialScore := 1 - min initialDistance 1
  let termOverlap :=
    if queryTerms ≠ [] then
      calculateTermOverlap queryTerms ((metadata.map MetaRec.text).getD "")
    else 0
  let termBoost :=
    if termOverlap ≥ cfg.MIN_TERM_MATCH then termOverlap * cfg.EXACT_MATCH_BOOST else 0
  let metadataBoost :=
    match metadata with
    | some m => calculateMetadataBoost cfg m queryText
    | none => 0
  let entityBoost :=
    match queryEntity with
    | some qe =>
      if docEntities ≠ [] then calculateEntityBoost cfg [qe] docEntities exactMatch
      else 0
    | none => 0
  let personBoost :=
    match queryEntity with
    | some qe =>
      if docEntities ≠ [] ∧ qe.label = "PERSON" then
        calculatePersonBoost cfg [qe] docEntities
      else 0
    | none => 0
  { initial_score := initialScore
    term_boost := termBoost
    metadata_boost := metadataBoost
    entity_boost := entityBoost
    person_boost := personBoost
    final_score := initialScore + termBoost + metadataBoost + entityBoost + personBoost }

/-- One raw search result handed to `rerank_results`: a document with
already-decoded metadata, its vector distance, and the
`exact_match` flag (`result.get('exact_match', False)`). -/
structure RawResult where
  document : String
  metadata : Option MetaRec
  distance : ℚ
  exact_match : Bool
deriving DecidableEq, Repr

/-- One reranked result. -/
structure RankedResult where
  document : String
  metadata : Option MetaRec
  relevance_score : ℚ
  score_breakdown : ScoreBreakdown
deriving DecidableEq, Repr

/-- Stable insertion for descending sort by `relevance_score`
(Python `sorted(..., key=..., reverse=True)` keeps the original order
of equal keys). -/
def insertByScore (x : RankedResult) : List RankedResult → List RankedResult
  | [] => [x]
  | y :: ys =>
    if x.relevance_score ≥ y.relevance_score then x :: y :: ys
    else y :: insertByScore x ys

/-- Stable descending sort by `relevance_score`. -/
def sortByScoreDesc : List RankedResult → List RankedResult
  | [] => []
  | x :: xs => insertByScore x (sortByScoreDesc xs)

/-- The body of the `rerank_results` loop.  `hash(doc)` is modelled by
the stripped document text itself; note the source *removes* the hash
from `seen_content` again at the end of each iteration.  `extract`
stands for `extract_doc_entities` (the memoized
`entity_extractor.extract_entities`, or the constant `{}` when no
extractor is configured). -/
def rerankLoop (cfg : ScoreConfig) (extract : String → List Entity)
    (queryTerms : List String) (queryText : String) (entity : Option Entity) :
    List RawResult → List String → List RankedResult → List RankedResult
  | [], _, reranked => sortByScoreDesc reranked
  | r :: rest, seen, reranked =>
    let doc := pyStrip r.document
    if seen.contains doc then rerankLoop cfg extract queryTerms queryText entity rest seen reranked
    else
      let seen1 := doc :: seen
      let docEntities := extract doc
      let scores := calculateScores cfg r.distance queryTerms queryText entity
        docEntities r.metadata r.exact_match
      if scores.final_score ≥ cfg.MIN_RELEVANCE_SCORE then
        let reranked1 := reranked ++ [⟨r.document, r.metadata, scores.final_score, scores⟩]
        if reranked1.length ≥ cfg.DEFAULT_RESULTS then
          let scoreList := reranked1.map RankedResult.relevance_score
          let minAcceptable := scoreList.headD 0 * cfg.MIN_RELEVANCE_SCORE * 4
          if scoreList.getLastD 0 < minAcceptable then
            sortByScoreDesc reranked1
          else
            rerankLoop cfg extract queryTerms queryText entity rest (seen1.erase doc) reranked1
        else
          rerankLoop cfg extract queryTerms queryText entity rest (seen1.erase doc) reranked1
      else
        rerankLoop cfg extract queryTerms queryText entity rest (seen1.erase doc) reranked

/-- `ScoringService.rerank_results` (its `except` arm returning `[]`
cannot trigger in the embedding, whose operations are total). -/
def rerankResults (cfg : ScoreConfig) (extract : String → List Entity)
    (results : List RawResult) (queryText : String) (entity : Option Entity) :
    List RankedResult :=
  rerankLoop cfg extract (extractSearchTerms queryText) queryText entity results [] []

/-! ## MD5 (`hashlib.md5(...).hexdigest()`), RFC 1321 -/

/-- UTF-8 encoding of one character (`str.encode()`). -/
def utf8Char (c : Char) : List Nat :=
  let n := c.toNat
  if n < 0x80 then [n]
  else if n < 0x800 then
    [0xC0 ||| (n >>> 6), 0x80 ||| (n &&& 0x3F)]
  else if n < 0x10000 then
    [0xE0 ||| (n >>> 12), 0x80 ||| ((n >>> 6) &&& 0x3F), 0x80 ||| (n &&& 0x3F)]
  else
    [0xF0 ||| (n >>> 18), 0x80 ||| ((n >>> 12) &&& 0x3F),
     0x80 ||| ((n >>> 6) &&& 0x3F), 0x80 ||| (n &&& 0x3F)]

/-- UTF-8 bytes of a string. -/
def utf8Bytes (s : String) : List Nat := s.data.flatMap utf8Char

/-- The 64 MD5 sine-table constants. -/
def md5K : List Nat :=
  [0xd76aa478, 0xe8c7b756, 0x242070db, 0xc1bdceee,
   0xf57c0faf, 0x4787c62a, 0xa8304613, 0xfd469501,
   0x698098d8, 0x8b44f7af, 0xffff5bb1, 0x895cd7be,
   0x6b901122, 0xfd987193, 0xa679438e, 0x49b40821,
   0xf61e2562, 0xc040b340, 0x265e5a51, 0xe9b6c7aa,
   0xd62f105d, 0x02441453, 0xd8a1e681, 0xe7d3fbc8,
   0x21e1cde6, 0xc33707d6, 0xf4d50d87, 0x455a14ed,
   0xa9e3e905, 0xfcefa3f8, 0x676f02d9, 0x8d2a4c8a,
   0xfffa3942, 0x8771f681, 0x6d9d6122, 0xfde5380c,
   0xa4beea44, 0x4bdecfa9, 0xf6bb4b60, 0xbebfbc70,
   0x289b7ec6, 0xeaa127fa, 0xd4ef3085, 0x04881d05,
   0xd9d4d039, 0xe6db99e5, 0x1fa27cf8, 0xc4ac5665,
   0xf4292244, 0x432aff97, 0xab9423a7, 0xfc93a039,
   0x655b59c3, 0x8f0ccc92, 0xffeff47d, 0x85845dd1,
   0x6fa87e4f, 0xfe2ce6e0, 0xa3014314, 0x4e0811a1,
   0xf7537e82, 0xbd3af235, 0x2ad7d2bb, 0xeb86d391]

/-- The 64 MD5 per-round left-rotation amounts. -/
def md5S : List Nat :=
  [7, 12, 17, 22, 7, 12, 17, 22, 7, 12, 17, 22, 7, 12, 17, 22,
   5, 9, 14, 20, 5, 9, 14, 20, 5, 9, 14, 20, 5, 9, 14, 20,
   4, 11, 16, 23, 4, 11, 16, 23, 4, 11, 16, 23, 4, 11, 16, 23,
   6, 10, 15, 21, 6, 10, 15, 21, 6, 10, 15, 21, 6, 10, 15, 21]

/-- 32-bit left rotation on `Nat` values below `2 ^ 32`. -/
def rotl32 (x s : Nat) : Nat :=
  ((x <<< s) ||| (x >>> (32 - s))) % 4294967296

/-- MD5 padding: append `0x80`, zero bytes to 56 mod 64, then the
64-bit little-endian bit length. -/
def md5Pad (msg : List Nat) : List Nat :=
  let bitLen := (8 * msg.length) % 18446744073709551616
  let padLen := (64 + 56 - (msg.length + 1) % 64) % 64
  msg ++ [0x80] ++ List.replicate padLen 0 ++
    (List.range 8).map (fun i => (bitLen >>> (8 * i)) &&& 0xFF)

/-- Split a byte list into little-endian 32-bit words. -/
def md5Words : List Nat → List Nat
  | b0 :: b1 :: b2 :: b3 :: rest =>
    (b0 ||| (b1 <<< 8) ||| (b2 <<< 16) ||| (b3 <<< 24)) :: md5Words rest
  | _ => []

/-- One MD5 round on state `(A, B, C, D)` with message words `m`. -/
def md5Round (m : List Nat) (st : Nat × Nat × Nat × Nat) (i : Nat) :
    Nat × Nat × Nat × Nat :=
  let (a, b, c, d) := st
  let notMask := fun (x : Nat) => 4294967295 ^^^ x
  let (f, g) :=
    if i < 16 then ((b &&& c) ||| (notMask b &&& d), i)
    else if i < 32 then ((d &&& b) ||| (notMask d &&& c), (5 * i + 1) % 16)
    else if i < 48 then (b ^^^ c ^^^ d, (3 * i + 5) % 16)
    else (c ^^^ (b ||| notMask d), (7 * i) % 16)
  let f := (f + a + md5K.getD i 0 + m.getD g 0) % 4294967296
  (d, (b + rotl32 f (md5S.getD i 0)) % 4294967296, b, c)

/-- Apply the 64 MD5 rounds to one 64-byte block and add the result to
the running state. -/
def md5ProcessBlock (st : Nat × Nat × Nat × Nat) (block : List Nat) :
    Nat × Nat × Nat × Nat :=
  let (a0, b0, c0, d0) := st
  let m := md5Words block
  let (a, b, c, d) := (List.range 64).foldl (md5Round m) (a0, b0, c0, d0)
  ((a0 + a) % 4294967296, (b0 + b) % 4294967296,
   (c0 + c) % 4294967296, (d0 + d) % 4294967296)

/-- Process the padded message block by block, collecting 64 bytes at a
time (`buf` holds the current block reversed, `k` its fill level). -/
def md5Go (buf : List Nat) (k : Nat) (st : Nat × Nat × Nat × Nat) :
    List Nat → Nat × Nat × Nat × Nat
  | [] => st
  | b :: bs =>
    if k = 63 then md5Go [] 0 (md5ProcessBlock st (b :: buf).reverse) bs
    else md5Go (b :: buf) (k + 1) st bs

/-- Process the padded message 64-byte block by 64-byte block. -/
def md5Blocks (bytes : List Nat) (st : Nat × Nat × Nat × Nat) :
    Nat × Nat × Nat × Nat :=
  md5Go [] 0 st bytes

/-- Lowercase hexadecimal digit. -/
def hexDigit (n : Nat) : Char :=
  if n < 10 then Char.ofNat (48 + n) else Char.ofNat (87 + n)

/-- Little-endian lowercase hex rendering of one 32-bit word. -/
def hexWord32 (x : Nat) : List Char :=
  (List.range 4).flatMap (fun i =>
    let byte := (x >>> (8 * i)) &&& 0xFF
    [hexDigit (byte >>> 4), hexDigit (byte &&& 0xF)])

/-- `hashlib.md5(s.encode()).hexdigest()`. -/
def md5Hex (s : String) : String :=
  let (a, b, c, d) :=
    md5Blocks (md5Pad (utf8Bytes s)) (0x67452301, 0xefcdab89, 0x98badcfe, 0x10325476)
  String.mk (hexWord32 a ++ hexWord32 b ++ hexWord32 c ++ hexWord32 d)

/-! ## `cache.py` — CacheManager

The `llm` cache directory is modelled as an association list from key
(file stem) to file state; a file is either parseable JSON or
unreadable (I/O or JSON error on open).  Wall-clock instants are
rationals counting seconds. -/

/-- A JSON value as stored in a cache file. -/
inductive JVal where
  | null : JVal
  | bool : Bool → JVal
  | num : ℚ → JVal
  | str : String → JVal
  | arr : List JVal → JVal
  | obj : List (String × JVal) → JVal

/-- Dictionary lookup `d.get(k)` on an object. -/
def jGet (kvs : List (String × JVal)) (k : String) : Option JVal :=
  (kvs.find? (fun p => p.1 = k)).map Prod.snd

/-- Dictionary update `d[k] = v` (overwrites an existing key, else
appends). -/
def jSet (kvs : List (String × JVal)) (k : String) (v : JVal) :
    List (String × JVal) :=
  if (kvs.find? (fun p => p.1 = k)).isSome then
    kvs.map (fun p => if p.1 = k then (k, v) else p)
  else kvs ++ [(k, v)]

/-- State of one cache file. -/
inductive CacheFile where
  | unreadable : CacheFile
  | json : JVal → CacheFile

/-- The `llm` cache directory. -/
abbrev CacheFs := List (String × CacheFile)

/-- File lookup by key. -/
def lookupFs (fs : CacheFs) (key : String) : Option CacheFile :=
  (fs.find? (fun p => p.1 = key)).map Prod.snd

/-- Write (create or overwrite) the file for `key`. -/
def writeFs (fs : CacheFs) (key : String) (v : CacheFile) : CacheFs :=
  if (fs.find? (fun p => p.1 = key)).isSome then
    fs.map (fun p => if p.1 = key then (key, v) else p)
  else fs ++ [(key, v)]

/-- The cache-relevant configuration: `cache_max_age_days`,
`cache_cleanup_interval_hours`, and a model of
`datetime.fromisoformat` for string timestamps (data-dependent
parsing; `none` models a raising parse). -/
structure CacheCfg where
  maxAgeDays : ℚ
  cleanupIntervalHours : ℚ
  parseIso : String → Option ℚ

/-- `CacheManager.get_cache_key`: MD5 hex digest of
`f"{query}_{response_format}"`. -/
def getCacheKey (query responseFormat : String) : String :=
  md5Hex (query ++ "_" ++ responseFormat)

/-- `CacheManager._is_expired`.  A missing or falsy timestamp (`None`,
`0`, `''`, `False`, empty containers) is expired; numbers compare
against `now`; strings go through `fromisoformat`; anything whose
parse raises is expired (the exception handler returns `True`). -/
def isExpired (cfg : CacheCfg) (now : ℚ) : Option JVal → Bool
  | none => true
  | some .null => true
  | some (.bool b) => if b then true else true
  | some (.num q) =>
    if q = 0 then true else decide (now - q > cfg.maxAgeDays * 86400)
  | some (.str s) =>
    if s = "" then true
    else
      match cfg.parseIso s with
      | some t => decide (now - t > cfg.maxAgeDays * 86400)
      | none => true
  | some (.arr _) => true
  | some (.obj _) => true

/-- `CacheManager.get_cached_response`.  Returns `none` on a falsy
key, a missing file, an unreadable file, a non-dictionary payload
(`cached.get` raises inside the `try`), or an expired timestamp. -/
def getCachedResponse (cfg : CacheCfg) (fs : CacheFs) (now : ℚ) (key : String) :
    Option JVal :=
  if key = "" then none
  else
    match lookupFs fs key with
    | none => none
    | some .unreadable => none
    | some (.json v) =>
      match v with
      | .obj kvs => if isExpired cfg now (jGet kvs "timestamp") then none else some v
      | _ => none

/-- `CacheManager._remove_old_entries`: delete parseable entries whose
timestamp is expired (unreadable files make that iteration raise,
which is caught, leaving the file in place; non-dictionary payloads
raise on `.get` and also stay). -/
def removeOldEntries (cfg : CacheCfg) (now : ℚ) (fs : CacheFs) : CacheFs :=
  fs.filter (fun p =>
    match p.2 with
    | .json (.obj kvs) => !(isExpired cfg now (jGet kvs "timestamp"))
    | _ => true)

/-- Mutable state of a `CacheManager`: the `llm` directory plus
`self.last_cleanup`. -/
structure CacheState where
  fs : CacheFs
  lastCleanup : ℚ

/-- `CacheManager.cleanup_cache`.  Runs at most once per cleanup
interval.  `_check_size_limits` (eviction driven by on-disk byte
sizes and modification times across the whole cache directory) acts
on data outside this model and is not represented; theorems touching
cleanup carry an explicit no-cleanup-window hypothesis instead. -/
def cleanupCache (cfg : CacheCfg) (st : CacheState) (now : ℚ) : CacheState :=
  if now - st.lastCleanup > cfg.cleanupIntervalHours * 3600 then
    { fs := removeOldEntries cfg now st.fs, lastCleanup := now }
  else st

/-- `CacheManager.cache_response`.  Does nothing on a falsy key or
response object; otherwise stamps `timestamp`, writes the file
(`writeOk = false` models an I/O failure, swallowed by the handler,
which also skips the cleanup call), then runs `cleanup_cache`. -/
def cacheResponse (cfg : CacheCfg) (st : CacheState) (now : ℚ) (key : String)
    (responseObj : List (String × JVal)) (writeOk : Bool) : CacheState :=
  if key = "" then st
  else
    match responseObj with
    | [] => st
    | _ =>
      let obj := jSet responseObj "timestamp" (.num now)
      if writeOk then
        cleanupCache cfg { st with fs := writeFs st.fs key (.json (.obj obj)) } now
      else st

/-! ## Emotion detection (`rag.py`) -/

/-- `any(word in text_lower for word in [...])`. -/
def containsAnyOf (text : String) (kws : List String) : Bool :=
  kws.any (fun kw => pyInStr kw text)

/-- The response-content arm of `_detect_emotion_from_content`
(the six keyword groups, in priority order), on the lowercased text. -/
def contentEmotion (textLower : String) : Option String :=
  if containsAnyOf textLower ["congratulations", "excellent", "wonderful", "amazing", "fantastic"] then
    some "happy"
  else if containsAnyOf textLower ["exciting", "thrilled", "incredible"] then
    some "excited"
  else if containsAnyOf textLower ["sorry", "unfortunately", "problem", "issue", "error"] then
    some "sad"
  else if containsAnyOf textLower ["interesting", "surprising", "remarkable", "wow"] then
    some "surprised"
  else if containsAnyOf textLower ["unclear", "confusing", "not sure", "difficult to"] then
    some "confused"
  else if containsAnyOf textLower ["think", "consider", "analyze", "complex", "depends"] then
    some "thinking"
  else none

/-- The question-context arm of `_detect_emotion_from_content`, on the
lowercased question. -/
def questionEmotion (questionLower : String) : Option String :=
  if containsAnyOf questionLower ["hello", "hi", "hey", "good morning", "good afternoon"] then
    some "greeting"
  else if containsAnyOf questionLower ["bye", "goodbye", "see you", "farewell"] then
    some "goodbye"
  else none

/-- `RAGAssistant._detect_emotion_from_content`. -/
def detectEmotionFromContent (text question : String) : String :=
  if text = "" then "neutral"
  else
    match contentEmotion (strToLower text) with
    | some e => e
    | none =>
      match questionEmotion (strToLower question) with
      | some e => e
      | none => "neutral"

/-- `RAGAssistant._parse_llm_response`: strip, then detect the emotion
from the cleaned text (its `except` arm is unreachable here). -/
def parseLlmResponse (fullResponse question : String) : String × String :=
  let cleaned := pyStrip fullResponse
  (cleaned, detectEmotionFromContent cleaned question)

/-! ## `vector_search_service.py` — preprocessing and search -/

/-- Worker for `subTagL`: `skipping` is set while consuming the word
characters of a matched tag. -/
def subTagGo (tag : Char) (skipping : Bool) : List Char → List Char
  | [] => []
  | c :: cs =>
    if skipping ∧ isWordChar c then subTagGo tag true cs
    else if c = tag ∧ (cs.head?.map isWordChar).getD false then
      subTagGo tag true cs
    else c :: subTagGo tag false cs

/-- `re.sub(r'@\w+', '')` / `re.sub(r'#\w+', '')`: drop the marker and
the following run of word characters (a bare marker stays). -/
def subTagL (tag : Char) (l : List Char) : List Char := subTagGo tag false l

/-- The `http\S+` arm: `http` at this position followed by at least
one non-whitespace character. -/
def httpGuard (l : List Char) : Bool :=
  isPrefixB "http".data l &&
  ((l.drop 4).head?.map (fun d => !isWsChar d)).getD false

/-- The `www.\S+` arm: `www`, then any character other than a newline,
then at least one non-whitespace character. -/
def wwwGuard (l : List Char) : Bool :=
  isPrefixB "www".data l &&
  ((l.drop 3).head?.map (fun d => d != '\n')).getD false &&
  ((l.drop 4).head?.map (fun d => !isWsChar d)).getD false

/-- Worker for `subUrlsL`: `pend` characters still to swallow
unconditionally (the `www` prefix and its wildcard), `skipping` while
consuming the non-whitespace tail of a match. -/
def subUrlsGo (pend : Nat) (skipping : Bool) : List Char → List Char
  | [] => []
  | c :: cs =>
    if pend ≠ 0 then subUrlsGo (pend - 1) skipping cs
    else if skipping ∧ !isWsChar c then subUrlsGo 0 true cs
    else if httpGuard (c :: cs) then subUrlsGo 0 true cs
    else if wwwGuard (c :: cs) then subUrlsGo 3 true cs
    else c :: subUrlsGo 0 false cs

/-- `re.sub(r'http\S+|www.\S+', '')`: at each position, first try
`http` followed by a non-space run, then `www` followed by any
non-newline character and a non-space run; the matched stretch is
removed. -/
def subUrlsL (l : List Char) : List Char := subUrlsGo 0 false l

/-- Worker for `collapseRunsL`: `inRun` is set while inside a matched
run (whose first character already emitted the replacement). -/
def collapseRunsGo (p : Char → Bool) (rep : Char) (inRun : Bool) : List Char → List Char
  | [] => []
  | c :: cs =>
    if p c then
      if inRun then collapseRunsGo p rep true cs
      else rep :: collapseRunsGo p rep true cs
    else c :: collapseRunsGo p rep false cs

/-- `re.sub(r'X+', rep)` for a character class: collapse each maximal
run into a single replacement character. -/
def collapseRunsL (p : Char → Bool) (rep : Char) (l : List Char) : List Char :=
  collapseRunsGo p rep false l

/-- `re.sub(r'[^\w\s.,!?-]', '')`. -/
def keepAllowedCharsL (l : List Char) : List Char :=
  l.filter (fun c => isWordChar c || isWsChar c ||
    c = '.' || c = ',' || c = '!' || c = '?' || c = '-')

/-- `VectorSearchService.preprocess_text` (the timing value it also
returns is irrelevant and dropped; the `lru_cache` is semantically
transparent). -/
def preprocessText (s : String) : String :=
  String.mk (trimL (keepAllowedCharsL (collapseRunsL isWsChar ' '
    (collapseRunsL (· = '\n') ' ' (subUrlsL (subTagL '#' (subTagL '@' s.data)))))))

/-- One raw hit from the Chroma collection: document text, decoded
metadata (`_decode_metadata` only turns JSON strings back into
objects, so the embedding carries metadata in decoded form
throughout), and vector distance. -/
structure SearchHit where
  document : String
  metadata : Option MetaRec
  distance : ℚ

/-- The external vector collection: query behaviors for the
entity-filtered and plain nearest-neighbour searches; `.error` models
a raised exception. -/
structure Collection where
  entityQuery : String → Entity → Except String (List SearchHit)
  semanticQuery : String → Nat → Except String (List SearchHit)

/-- `VectorSearchService.entity_first_search`: on success tags every
hit with `exact_match = True`; a collection exception is caught,
logged, and turned into `[]`. -/
def entityFirstSearch (c : Collection) (queryText : String) (entity : Entity) :
    List RawResult :=
  match c.entityQuery queryText entity with
  | .ok hits => hits.map (fun h => ⟨h.document, h.metadata, h.distance, true⟩)
  | .error _ => []

/-- `VectorSearchService.semantic_search`: no exception handler, so a
collection failure propagates to the caller. -/
def semanticSearch (c : Collection) (queryText : String) (nResults : Nat) :
    Except String (List RawResult) :=
  (c.semanticQuery queryText nResults).map
    (List.map (fun h => ⟨h.document, h.metadata, h.distance, false⟩))

/-! ## Citation stripping and streaming helpers (`rag.py`) -/

/-- After `[` and the leading digit run: consume `([-,]\d+)*` then `]`,
returning the number of characters consumed. -/
def parseCitRest : List Char → Option Nat
  | [] => none
  | ']' :: _ => some 1
  | c :: rest =>
    if c = '-' ∨ c = ',' then
      let d := (rest.takeWhile Char.isDigit).length
      if d = 0 then none
      else
        match parseCitRest (rest.drop d) with
        | some n => some (1 + d + n)
        | none => none
    else none
termination_by l => l.length
decreasing_by
  simp only [List.length_drop, List.length_cons]
  omega

/-- Try to match `\d+(?:[-,]\d+)*\]` right after an opening bracket,
returning the number of characters consumed. -/
def parseCitation (cs : List Char) : Option Nat :=
  let d := (cs.takeWhile Char.isDigit).length
  if d = 0 then none
  else (parseCitRest (cs.drop d)).map (fun n => d + n)

/-- `re.sub(r'\[\d+(?:[-,]\d+)*\]', '', chunk)`. -/
def removeCitationsL : List Char → List Char
  | [] => []
  | c :: cs =>
    if c = '[' then
      match parseCitation cs with
      | some n => removeCitationsL (cs.drop n)
      | none => c :: removeCitationsL cs
    else c :: removeCitationsL cs
termination_by l => l.length
decreasing_by
  · simp only [List.length_drop, List.length_cons]
    omega
  · simp
  · simp

/-- String wrapper for citation removal. -/
def removeCitations (s : String) : String := String.mk (removeCitationsL s.data)

/-- `RAGAssistant._stream_text`: word chunks, a trailing space on all
but the last. -/
def streamWords : List String → List String
  | [] => []
  | [w] => [w]
  | w :: rest => (w ++ " ") :: streamWords rest

/-- `_stream_text` on a text. -/
def streamText (t : String) : List String := streamWords (pyWords t)

/-- One line of `_handle_cached_response`: every word gets a trailing
space. -/
def lineChunks (line : String) : List String :=
  (pyWords line).map (· ++ " ")

/-- `_handle_cached_response` streaming: lines separated by a literal
newline chunk. -/
def restreamLinesChunks : List String → List String
  | [] => []
  | [l] => lineChunks l
  | l :: rest => lineChunks l ++ "\n" :: restreamLinesChunks rest

/-- The chunk sequence `_handle_cached_response` yields for a cached
text. -/
def restreamCached (t : String) : List String :=
  restreamLinesChunks ((splitOnP (· = '\n') t.data).map String.mk)

/-! ## `rag.py` — RAGAssistant orchestration -/

/-- Result of one `_stream_response_with_emotion` run: the chunks the
LLM delivered before the stream ended, and `error = some msg` when the
stream raised after those chunks. -/
structure LlmOutcome where
  chunks : List String
  error : Option String

/-- The deterministic environment of one request: configuration,
catalogues, and the behaviour of every external collaborator. -/
structure Env where
  scfg : ScoreConfig
  excfg : ExtractorCfg
  ccfg : CacheCfg
  cacheEnabled : Bool
  writeOk : Bool
  perplexityEnabled : Bool
  perplexityKey : Bool
  currentYear : Int
  yearRange : Int
  collection : Collection
  llm : String → LlmOutcome
  perplexity : String → String → Except String (List String)
  sysPrompt : String → String → String
  dateStr : ℚ → String

/-- `PerplexityClient.is_available`. -/
def perplexityAvailable (env : Env) : Bool :=
  env.perplexityKey && env.perplexityEnabled

/-- `RAGAssistant._is_temporal_query`. -/
def isTemporalQuery (env : Env) (question : String) : Bool :=
  env.perplexityEnabled && needsCurrentInfo env.currentYear env.yearRange question

/-- The observable result of one `RAGAssistant.query` generator run:
the yielded chunks, `_last_detected_emotion`, the final
`query_data["cache_safe"]`, the cache state, whether the response
cache was consulted, `self._current_cache_key`, whether
`cache_response` was invoked, and whether the top-level exception
handler fired. -/
structure Outcome where
  chunks : List String
  emotion : String
  cacheSafe : Bool
  state : CacheState
  consulted : Bool
  key : Option String
  wrote : Bool
  errored : Bool

/-- `extract_doc_entities` of the scoring service (the bounded
memoization cache is semantically transparent; the API service always
wires an entity extractor). -/
def docExtract (env : Env) : String → List Entity :=
  extractEntities env.excfg

/-- The response object `_cache_response_if_appropriate` builds.  The
`metadata` field holds the per-request `query_data` record, never read
back by the code; it is represented by an empty object. -/
def cacheResponseObj (responseText responseFormat : String) : List (String × JVal) :=
  [("llm_response", .str responseText),
   ("response_format", .str responseFormat),
   ("metadata", .obj [])]

/-- `RAGAssistant._cache_response_if_appropriate` followed from
`_handle_response_completion`: write only when a cache key was
computed, a cache manager exists, and the query is still marked
cache-safe. -/
def cacheIfAppropriate (env : Env) (st : CacheState) (now : ℚ) (key : Option String)
    (cacheSafe : Bool) (responseText responseFormat : String) : CacheState × Bool :=
  match key with
  | some k =>
    if env.cacheEnabled && cacheSafe then
      (cacheResponse env.ccfg st now k (cacheResponseObj responseText responseFormat) env.writeOk,
       true)
    else (st, false)
  | none => (st, false)

/-- `RAGAssistant._process_results` together with
`_stream_response_with_emotion`: stream the LLM completion; on
success detect the emotion from the full text and the original
question, on a stream exception set the emotion to `neutral` and
yield the fixed fallback chunk; then cache if appropriate. -/
def processResults (env : Env) (st : CacheState) (now : ℚ) (key : Option String)
    (consulted : Bool) (cleanQuestion originalQuestion responseFormat : String)
    (results : List RankedResult) : Outcome :=
  let context := joinSep "\n" (results.map RankedResult.document)
  let prompt := env.sysPrompt responseFormat (env.dateStr now) ++
    "\n\nContext:\n" ++ context ++ "\n\nQuestion: " ++ cleanQuestion ++ "\n\nAnswer:"
  let lr := env.llm prompt
  let chunks :=
    match lr.error with
    | none => lr.chunks
    | some _ => lr.chunks ++ ["Error generating response"]
  let emotion :=
    match lr.error with
    | none =>
      (parseLlmResponse (concatChunks lr.chunks)
        (if originalQuestion = "" then cleanQuestion else originalQuestion)).2
    | some _ => "neutral"
  let responseText := concatChunks chunks
  let cw := cacheIfAppropriate env st now key true responseText responseFormat
  { chunks := chunks, emotion := emotion, cacheSafe := true, state := cw.1,
    consulted := consulted, key := key, wrote := cw.2, errored := false }

/-- The `for entity in query_entities` loop of `_process_rag_query`:
the first PERSON/ORGANIZATION entity whose entity-first search returns
documents is reranked (top `DEFAULT_RESULTS`) and processed. -/
def entityLoopRag (env : Env) (st : CacheState) (now : ℚ) (key : Option String)
    (consulted : Bool) (cleanQuestion originalQuestion responseFormat : String) :
    List Entity → Option Outcome
  | [] => none
  | e :: rest =>
    if e.label = "PERSON" ∨ e.label = "ORGANIZATION" then
      let results := entityFirstSearch env.collection cleanQuestion e
      if results ≠ [] then
        let reranked := (rerankResults env.scfg (docExtract env) results cleanQuestion
          (some e)).take env.scfg.DEFAULT_RESULTS
        some (processResults env st now key consulted cleanQuestion originalQuestion
          responseFormat reranked)
      else
        entityLoopRag env st now key consulted cleanQuestion originalQuestion
          responseFormat rest
    else
      entityLoopRag env st now key consulted cleanQuestion originalQuestion
        responseFormat rest

/-- The retrieval arm of `_process_rag_query` on a cache miss: the
entity-first loop, then the semantic-search fallback with reranking. -/
def ragSearchPath (env : Env) (st : CacheState) (now : ℚ) (key : Option String)
    (useCache : Bool) (cleanQuestion question responseFormat : String)
    (ents : List Entity) : Except (String × Bool × Option String) Outcome :=
  match entityLoopRag env st now key useCache cleanQuestion question responseFormat ents with
  | some o => .ok o
  | none =>
    match semanticSearch env.collection cleanQuestion (env.scfg.DEFAULT_RESULTS * 3) with
    | .error e => .error (e, useCache, key)
    | .ok results =>
      let reranked := rerankResults env.scfg (docExtract env) results cleanQuestion
        ents.head?
      .ok (processResults env st now key useCache cleanQuestion question responseFormat
        (reranked.take env.scfg.DEFAULT_RESULTS))

/-- The `llm_response` field check of `_get_cache_response` and
`_process_rag_query`: a hit needs a dictionary payload carrying an
`llm_response`; a non-string `llm_response` raises downstream in
`_handle_cached_response` (carried as an error). -/
def ragCachedText (useCache : Bool) (key : Option String) (cached : Option JVal) :
    Except (String × Bool × Option String) (Option String) :=
  match cached with
  | some (.obj kvs) =>
    match jGet kvs "llm_response" with
    | some (.str s) => .ok (some s)
    | some _ => .error ("unsupported cached llm_response payload", useCache, key)
    | none => .ok none
  | _ => .ok none

/-- The tail of `_process_rag_query`: serve from cache via
`_handle_cached_response` on a hit, otherwise run the retrieval arm. -/
def ragDispatch (env : Env) (st : CacheState) (now : ℚ) (key : Option String)
    (useCache : Bool) (cleanQuestion question responseFormat : String)
    (ents : List Entity)
    (cachedText : Except (String × Bool × Option String) (Option String)) :
    Except (String × Bool × Option String) Outcome :=
  match cachedText with
  | .error e => .error e
  | .ok (some s) =>
    .ok { chunks := restreamCached (parseLlmResponse s "").1,
          emotion := (parseLlmResponse s "").2, cacheSafe := true,
          state := st, consulted := useCache, key := key, wrote := false,
          errored := false }
  | .ok none =>
    ragSearchPath env st now key useCache cleanQuestion question responseFormat ents

/-- The string actually fed into the cache key by
`_get_cache_response`: `self.normalized_query or question`, where
`normalized_query` is the person-normalized raw question when the
first extracted entity is a PERSON, and `None` otherwise. -/
def ragCacheQuery (env : Env) (question : String) : String :=
  match extractEntities env.excfg (preprocessText question) with
  | e :: _ =>
    if e.label = "PERSON" then normalizeName env.excfg.pd question else question
  | [] => question

/-- `RAGAssistant._process_rag_query`.  The `.error` result carries an
uncaught exception (a semantic-search collection failure, or a cached
`llm_response` payload that is not a string) up to the `query`
handler, together with the consultation flag and cache key at that
point. -/
def processRagQuery (env : Env) (st : CacheState) (now : ℚ)
    (question responseFormat : String) :
    Except (String × Bool × Option String) Outcome :=
  let cleanQuestion := preprocessText question
  let ents := extractEntities env.excfg cleanQuestion
  let useCache := env.cacheEnabled && !(isTemporalQuery env question)
  let key : Option String :=
    if useCache then some (getCacheKey (ragCacheQuery env question) responseFormat)
    else none
  let cached : Option JVal :=
    match key with
    | some k => getCachedResponse env.ccfg st.fs now k
    | none => none
  ragDispatch env st now key useCache cleanQuestion question responseFormat ents
    (ragCachedText useCache key cached)

/-- `RAGAssistant._query_perplexity`. -/
def queryPerplexity (env : Env) (st : CacheState) (_now : ℚ)
    (question responseFormat : String) : Outcome :=
  match env.perplexity question responseFormat with
  | .ok chunks =>
    let responseText := concatChunks (chunks.map removeCitations)
    let (cleanedResponse, emotion) := parseLlmResponse responseText question
    { chunks := streamText cleanedResponse, emotion := emotion, cacheSafe := false,
      state := st, consulted := false, key := none, wrote := false, errored := false }
  | .error _ =>
    let errorResponse :=
      if responseFormat = "voice" then
        "I can\x27t access current information right now."
      else
        "I\x27m unable to access current information at the moment. Please try again later."
    { chunks := [errorResponse],
      emotion := detectEmotionFromContent errorResponse question, cacheSafe := false,
      state := st, consulted := false, key := none, wrote := false, errored := false }

/-- `RAGAssistant.query`: temporal dispatch, RAG pipeline, and the
top-level exception handler. -/
def ragQuery (env : Env) (st : CacheState) (now : ℚ)
    (question responseFormat : String) : Outcome :=
  if isTemporalQuery env question && perplexityAvailable env then
    queryPerplexity env st now question responseFormat
  else
    match processRagQuery env st now question responseFormat with
    | .ok o => o
    | .error (_, consulted, key) =>
      { chunks := ["An error occurred"], emotion := "confused", cacheSafe := false,
        state := st, consulted := consulted, key := key, wrote := false, errored := true }

/-! ## `api/routes.py` — the `/query` handler -/

/-- `re.sub(r'EMOTION:\s*[a-zA-Z]+\s*$', '', t)`: remove a trailing
emotion tag if present. -/
def stripEmotionTagL (l : List Char) : List Char :=
  let r := l.reverse
  let r1 := r.dropWhile isWsChar
  let r2 := r1.dropWhile Char.isAlpha
  if r2.length = r1.length then l
  else
    let r3 := r2.dropWhile isWsChar
    if isPrefixB "EMOTION:".data.reverse r3 then (r3.drop 8).reverse
    else l

/-- The response-body cleaning in `query_rag`:
`re.sub(r'EMOTION:\s*[a-zA-Z]+\s*$', '', response_text.strip()).strip()`. -/
def routeClean (responseText : String) : String :=
  pyStrip (String.mk (stripEmotionTagL (pyStrip responseText).data))

/-- The JSON body of a 200 response from `POST /query`. -/
structure RouteResponse where
  response : String
  emotion : String
  cache_safe : Bool
deriving DecidableEq, Repr

/-- `query_rag` in `api/routes.py`: validation, chunk collection, and
response assembly.  By the time the handler reads the cache-safety
flag the generator has been exhausted, so `_current_query_data` is
back to `None` and the flag is recomputed from the temporal test
alone.  `.error` carries an HTTP status and message. -/
def routeQuery (env : Env) (st : CacheState) (now : ℚ)
    (question responseFormat : String) :
    Except (Nat × String) (RouteResponse × CacheState) :=
  if pyStrip question = "" then .error (400, "Question cannot be empty")
  else if (pyStrip question).length > 1000 then
    .error (400, "Question too long (max 1000 characters)")
  else if responseFormat ≠ "web" ∧ responseFormat ≠ "voice" then
    .error (400, "Format must be \x27web\x27 or \x27voice\x27")
  else
    let isTemporal := env.perplexityEnabled &&
      needsCurrentInfo env.currentYear env.yearRange question
    let o := ragQuery env st now question responseFormat
    let cacheSafe := if isTemporal then false else true
    .ok ({ response := routeClean (concatChunks o.chunks), emotion := o.emotion,
           cache_safe := cacheSafe }, o.state)

/-! ## Concrete fixtures used by witnesses and counterexamples -/

/-- Trivial persons data: no curated persons, identity
standardization. -/
def pdTrivial : PersonsData := { personsLower := [], standardize := id }

/-- Empty catalogues. -/
def catEmpty : Catalogues :=
  { persons := [], organizations := [], locations := [], events := [] }

/-- Extractor over empty catalogues with the default weights
(`INITIAL_WEIGHT = 0.4`, `EXACT_WEIGHT = 0.6`). -/
def exEmpty : ExtractorCfg := { cat := catEmpty, pd := pdTrivial, iw := 2/5, ew := 3/5 }

/-- Catalogue with a single two-word organization entry. -/
def catOrgOnly : Catalogues :=
  { persons := [], organizations := ["alpha beta"], locations := [], events := [] }

/-- Extractor over `catOrgOnly`. -/
def exOrgOnly : ExtractorCfg := { cat := catOrgOnly, pd := pdTrivial, iw := 2/5, ew := 3/5 }

/-- Default cache configuration: 7-day TTL, 24-hour cleanup interval,
and an ISO parser that accepts nothing (no string timestamps occur in
the fixtures). -/
def ccfgDefault : CacheCfg :=
  { maxAgeDays := 7, cleanupIntervalHours := 24, parseIso := fun _ => none }

/-- A healthy collection that returns no documents. -/
def collEmptyOk : Collection :=
  { entityQuery := fun _ _ => .ok [], semanticQuery := fun _ _ => .ok [] }

/-- A collection whose queries raise. -/
def collFailing : Collection :=
  { entityQuery := fun _ _ => .error "collection unavailable",
    semanticQuery := fun _ _ => .error "collection unavailable" }

/-- Baseline environment: default configuration, empty catalogues,
cache enabled, Perplexity disabled, a healthy empty collection, and an
LLM that answers every prompt with one fixed chunk. -/
def envBase : Env where
  scfg := defaultScoreConfig
  excfg := exEmpty
  ccfg := ccfgDefault
  cacheEnabled := true
  writeOk := true
  perplexityEnabled := false
  perplexityKey := false
  currentYear := 2025
  yearRange := 1
  collection := collEmptyOk
  llm := fun _ => { chunks := ["Hello there."], error := none }
  perplexity := fun _ _ => .ok []
  sysPrompt := fun _ _ => "SYS"
  dateStr := fun _ => "01-01-2025"

/-- An empty cache state. -/
def stEmpty : CacheState := { fs := [], lastCleanup := 5 }

/-- Environment with the Perplexity path enabled and available. -/
def envPerp : Env := { envBase with
  perplexityEnabled := true
  perplexityKey := true
  perplexity := fun _ _ => .ok ["Based on current information", ", all good [1]."] }

/-- Environment whose LLM stream raises immediately. -/
def envLlmErr : Env := { envBase with
  llm := fun _ => { chunks := [], error := some "APIConnectionError" } }

/-- Environment whose LLM answers with a two-line response. -/
def envTwoLine : Env := { envBase with
  llm := fun _ => { chunks := ["Line one a\nLine two b"], error := none } }

/-- A document hit used twice to exercise de-duplication. -/
def rawDup : RawResult :=
  { document := "nitk campus", metadata := none, distance := 0, exact_match := false }

/-- Join words with single spaces (used to state the single-line,
single-spaced shape of a response). -/
def joinSpL : List (List Char) → List Char
  | [] => []
  | [w] => w
  | w :: rest => w ++ ' ' :: joinSpL rest

/-- String form of `joinSpL`. -/
def joinWords (ws : List String) : String :=
  String.mk (joinSpL (ws.map String.data))

/-- The cache key recorded at the point a `_process_rag_query` run
ends, also through the exception path. -/
def outcomeKey : Except (String × Bool × Option String) Outcome → Option String
  | .ok o => o.key
  | .error (_, _, k) => k

/-- C1 counterexample: the question `What is the latest news about NITK?`
is classified temporal by the temporal detector, yet with the external
provider disabled the orchestrator serves it through the RAG path:
`cache_safe` stays `true`, the response cache is consulted and written,
and a cache file with the query key exists after the call. -/
theorem c1_temporal_cache_counterexample :
    needsCurrentInfo 2025 1 "What is the latest news about NITK?" = true ∧
    (ragQuery envBase stEmpty 5 "What is the latest news about NITK?" "web").cacheSafe = true ∧
    (ragQuery envBase stEmpty 5 "What is the latest news about NITK?" "web").consulted = true ∧
    (ragQuery envBase stEmpty 5 "What is the latest news about NITK?" "web").wrote = true ∧
    (lookupFs (ragQuery envBase stEmpty 5 "What is the latest news about NITK?" "web").state.fs
      (getCacheKey "What is the latest news about NITK?" "web")).isSome = true := by
  with_unfolding_all decide

/-- C2: on a non-temporal query whose LLM stream raises, the
orchestrator yields the fallback `Error generating response`, but
leaves `cache_safe` at `true` and stores the fallback text in the
response cache under the query key — the inner handler of
`_stream_response_with_emotion` swallows the exception before the
cache-safety downgrade of `query` can fire. -/
theorem c2_error_response_cached :
    (ragQuery envLlmErr stEmpty 5 "why is the sky blue" "web").cacheSafe = true ∧
    (ragQuery envLlmErr stEmpty 5 "why is the sky blue" "web").chunks =
      ["Error generating response"] ∧
    (ragQuery envLlmErr stEmpty 5 "why is the sky blue" "web").wrote = true ∧
    (match lookupFs (ragQuery envLlmErr stEmpty 5 "why is the sky blue" "web").state.fs
        (getCacheKey "why is the sky blue" "web") with
      | some (.json (.obj kvs)) =>
        match jGet kvs "llm_response" with
        | some (.str s) => s
        | _ => ""
      | _ => "") = "Error generating response" := by
  with_unfolding_all decide

/-- C6: two candidates with byte-identical document bodies both survive
`rerank_results` — the `seen_content` hash is removed again at the end
of each loop iteration, so the de-duplication set is always empty when
the next candidate is examined. -/
theorem c6_duplicate_bodies_eval :
    (rerankResults defaultScoreConfig (extractEntities exEmpty) [rawDup, rawDup]
      "campus info" none).map RankedResult.document = ["nitk campus", "nitk campus"] := by
  with_unfolding_all decide

/-- C7: for the query `alpha  beta` (double space, so the exact
whole-query path misses) the five-token chunk `alpha beta` matches the
ORGANIZATION entry with token-sort ratio 1.0, and `_get_best_match`
returns it — but `extract_entities` filters on the never-present
`confidence` key and drops the match, returning no entity.  The exact
whole-query path (third conjunct) still works. -/
theorem c7_confidence_filter_eval :
    getBestMatch exOrgOnly "alpha beta" "ORGANIZATION" =
      some ⟨"alpha beta", "ORGANIZATION"⟩ ∧
    extractEntities exOrgOnly "alpha  beta" = [] ∧
    extractEntities exOrgOnly "alpha beta" = [⟨"alpha beta", "ORGANIZATION"⟩] := by
  with_unfolding_all decide

/-- C8 counterexample: a collection exception inside `semantic_search`
is not caught — the call propagates the error instead of returning an
empty result set. -/
theorem c8_semantic_error_counterexample :
    semanticSearch collFailing "anything" 15 = .error "collection unavailable" ∧
    (match semanticSearch collFailing "anything" 15 with
      | .ok _ => true
      | .error _ => false) = false :=
  ⟨rfl, rfl⟩

/-- C5 counterexample: two questions with equal normalized (cleaned)
text and the same format are keyed by their distinct raw strings and
land in different cache entries. -/
theorem c5_cache_key_counterexample :
    preprocessText "who is  the director of NITK?" =
      preprocessText "who is the director of NITK?" ∧
    (ragQuery envBase stEmpty 5 "who is  the director of NITK?" "web").key ≠
      (ragQuery envBase stEmpty 5 "who is the director of NITK?" "web").key := by
  with_unfolding_all decide

/-- C8 (amended): a collection exception inside `entity_first_search`
is caught and yields the empty result set, while the same exception
inside `semantic_search` propagates unchanged to the caller (where the
orchestrator-level handler picks it up). -/
theorem c8_search_error_handling (c : Collection) (q : String) (ent : Entity)
    (n : Nat) (e : String)
    (hEnt : c.entityQuery q ent = .error e)
    (hSem : c.semanticQuery q n = .error e) :
    entityFirstSearch c q ent = [] ∧ semanticSearch c q n = .error e := by
  constructor
  · unfold entityFirstSearch
    rw [hEnt]
  · unfold semanticSearch
    rw [hSem]
    rfl

/-- C8 witness: the failing collection. -/
theorem c8_search_error_handling_witness :
    entityFirstSearch collFailing "anything" ⟨"x", "ORGANIZATION"⟩ = [] ∧
    semanticSearch collFailing "anything" 15 = .error "collection unavailable" :=
  c8_search_error_handling collFailing "anything" ⟨"x", "ORGANIZATION"⟩ 15
    "collection unavailable" rfl rfl

/-- C10: the public cache operations are total and fail soft.
`get_cached_response` answers `none` on a falsy key, a missing file, an
unreadable file, a missing timestamp, an unparseable string timestamp,
and an expired numeric timestamp; `cache_response` leaves the state
untouched on a falsy key, an empty response object, and a failed
write. -/
theorem c10_cache_totality :
    (∀ cfg fs now, getCachedResponse cfg fs now "" = none) ∧
    (∀ cfg fs now key, lookupFs fs key = none → getCachedResponse cfg fs now key = none) ∧
    (∀ cfg fs now key, lookupFs fs key = some .unreadable →
      getCachedResponse cfg fs now key = none) ∧
    (∀ cfg fs now key kvs, lookupFs fs key = some (.json (.obj kvs)) →
      jGet kvs "timestamp" = none → getCachedResponse cfg fs now key = none) ∧
    (∀ cfg fs now key kvs s, lookupFs fs key = some (.json (.obj kvs)) →
      jGet kvs "timestamp" = some (.str s) → cfg.parseIso s = none →
      getCachedResponse cfg fs now key = none) ∧
    (∀ cfg fs now key kvs t, lookupFs fs key = some (.json (.obj kvs)) →
      jGet kvs "timestamp" = some (.num t) → now - t > cfg.maxAgeDays * 86400 →
      getCachedResponse cfg fs now key = none) ∧
    (∀ cfg st now obj writeOk, cacheResponse cfg st now "" obj writeOk = st) ∧
    (∀ cfg st now key writeOk, cacheResponse cfg st now key [] writeOk = st) ∧
    (∀ cfg st now key obj, cacheResponse cfg st now key obj false = st) := by
  refine ⟨?_, ?_, ?_, ?_, ?_, ?_, ?_, ?_, ?_⟩
  · intro cfg fs now
    simp [getCachedResponse]
  · intro cfg fs now key h
    unfold getCachedResponse
    rw [h]
    simp
  · intro cfg fs now key h
    unfold getCachedResponse
    rw [h]
    simp
  · intro cfg fs now key kvs h ht
    unfold getCachedResponse
    rw [h]
    simp [ht, isExpired]
  · intro cfg fs now key kvs s h ht hp
    unfold getCachedResponse
    rw [h]
    simp only [ht, isExpired]
    split
    · simp
    · rw [hp]
      simp
  · intro cfg fs now key kvs t h ht hexp
    unfold getCachedResponse
    rw [h]
    simp only [ht, isExpired]
    split
    · simp
    · simp [hexp]
  · intro cfg st now obj writeOk
    simp [cacheResponse]
  · intro cfg st now key writeOk
    unfold cacheResponse
    split
    · rfl
    · rfl
  · intro cfg st now key obj
    unfold cacheResponse
    split
    · rfl
    · split
      · rfl
      · simp

/-- C10 witness: a missing file is a miss, and a write with a falsy key
is a no-op, at concrete inputs. -/
theorem c10_cache_totality_witness :
    getCachedResponse ccfgDefault [] 5 "somekey" = none ∧
    cacheResponse ccfgDefault stEmpty 5 "" [("llm_response", .str "x")] true = stEmpty :=
  ⟨c10_cache_totality.2.1 ccfgDefault [] 5 "somekey" rfl,
   c10_cache_totality.2.2.2.2.2.2.1 ccfgDefault stEmpty 5 [("llm_response", .str "x")] true⟩

/-- `_process_results` leaves `self._current_cache_key` untouched. -/
theorem processResults_key (env : Env) (st : CacheState) (now : ℚ)
    (key : Option String) (consulted : Bool) (cq oq f : String)
    (rs : List RankedResult) :
    (processResults env st now key consulted cq oq f rs).key = key ∧
    (processResults env st now key consulted cq oq f rs).consulted = consulted ∧
    (processResults env st now key consulted cq oq f rs).cacheSafe = true ∧
    (processResults env st now key consulted cq oq f rs).errored = false :=
  ⟨rfl, rfl, rfl, rfl⟩

/-- The entity loop leaves the cache key untouched. -/
theorem entityLoopRag_key (env : Env) (st : CacheState) (now : ℚ)
    (key : Option String) (consulted : Bool) (cq oq f : String) :
    ∀ (ents : List Entity) (o : Outcome),
      entityLoopRag env st now key consulted cq oq f ents = some o → o.key = key := by
  intro ents
  induction ents with
  | nil => intro o h; exact absurd h (by simp [entityLoopRag])
  | cons e rest ih =>
    intro o h
    unfold entityLoopRag at h
    split at h
    · dsimp only at h
      split at h
      · rw [← Option.some_inj.mp h]
        exact (processResults_key env st now key consulted cq oq f _).1
      · exact ih o h
    · exact ih o h


/-- The retrieval arm carries the computed cache key through every
branch. -/
theorem ragSearchPath_key (env : Env) (st : CacheState) (now : ℚ)
    (key : Option String) (useCache : Bool) (cq oq f : String) (ents : List Entity) :
    outcomeKey (ragSearchPath env st now key useCache cq oq f ents) = key := by
  unfold ragSearchPath
  cases hL : entityLoopRag env st now key useCache cq oq f ents with
  | some o => exact entityLoopRag_key env st now key useCache cq oq f ents o hL
  | none =>
    cases hS : semanticSearch env.collection cq (env.scfg.DEFAULT_RESULTS * 3) with
    | error e => rfl
    | ok results => exact (processResults_key env st now key useCache cq oq f _).1


/-- Any error produced by `ragCachedText` carries the computed key. -/
theorem ragCachedText_error (useCache : Bool) (key : Option String)
    (cached : Option JVal) :
    ∀ e, ragCachedText useCache key cached = .error e → e.2.2 = key := by
  intro e h
  unfold ragCachedText at h
  split at h
  · split at h
    · exact absurd h (by simp)
    · cases h
      rfl
    · exact absurd h (by simp)
  · exact absurd h (by simp)

/-- `ragDispatch` carries the computed key through every branch. -/
theorem ragDispatch_key (env : Env) (st : CacheState) (now : ℚ)
    (key : Option String) (useCache : Bool) (cq oq f : String) (ents : List Entity)
    (ct : Except (String × Bool × Option String) (Option String))
    (hErr : ∀ e, ct = .error e → e.2.2 = key) :
    outcomeKey (ragDispatch env st now key useCache cq oq f ents ct) = key := by
  unfold ragDispatch
  cases ct with
  | error e => exact hErr e rfl
  | ok v =>
    cases v with
    | some s => rfl
    | none => exact ragSearchPath_key env st now key useCache cq oq f ents

/-- On a cache-eligible query, `_process_rag_query` computes exactly
one cache key, carried through every branch. -/
theorem processRagQuery_key (env : Env) (st : CacheState) (now : ℚ) (q f : String)
    (hTemp : isTemporalQuery env q = false) (hCache : env.cacheEnabled = true) :
    outcomeKey (processRagQuery env st now q f) =
      some (getCacheKey (ragCacheQuery env q) f) := by
  unfold processRagQuery
  simp only [hTemp, hCache, Bool.not_false, Bool.and_self, if_pos]
  exact ragDispatch_key env st now _ true _ q f _ _ (ragCachedText_error true _ _)

/-- C5 (amended): on a cache-eligible (non-temporal, cache-enabled)
query, the response-cache key is the MD5 hex digest of `X + "_" +
format` where `X` is the person-normalized raw question when the first
extracted entity is a PERSON and the raw question otherwise; the
C1-normalized (cleaned) question does not enter the key, so only
queries with equal raw text (or equal person-normalized names) and
equal format share a cache entry. -/
theorem c5_cache_key (env : Env) (st : CacheState) (now : ℚ) (q f : String)
    (hTemp : isTemporalQuery env q = false) (hCache : env.cacheEnabled = true) :
    (ragQuery env st now q f).key = some (getCacheKey (ragCacheQuery env q) f) ∧
    getCacheKey (ragCacheQuery env q) f = md5Hex (ragCacheQuery env q ++ "_" ++ f) := by
  refine ⟨?_, rfl⟩
  unfold ragQuery
  rw [hTemp]
  simp only [Bool.false_and, Bool.false_eq_true, if_false]
  have h := processRagQuery_key env st now q f hTemp hCache
  cases hP : processRagQuery env st now q f with
  | ok o =>
    rw [hP] at h
    exact h
  | error e =>
    rw [hP] at h
    obtain ⟨m, c, k⟩ := e
    exact h

/-- C5 witness: a concrete non-temporal query. -/
theorem c5_cache_key_witness :
    (ragQuery envBase stEmpty 5 "who is the registrar" "web").key =
      some (getCacheKey (ragCacheQuery envBase "who is the registrar") "web") ∧
    getCacheKey (ragCacheQuery envBase "who is the registrar") "web" =
      md5Hex (ragCacheQuery envBase "who is the registrar" ++ "_" ++ "web") :=
  c5_cache_key envBase stEmpty 5 "who is the registrar" "web"
    (by with_unfolding_all decide) rfl

/-- Term overlap is a fraction of a count: never negative. -/
theorem calculateTermOverlap_nonneg (qt : List String) (doc : String) :
    0 ≤ calculateTermOverlap qt doc := by
  unfold calculateTermOverlap
  split
  · exact le_refl 0
  · positivity

/-- Metadata boosts only add nonnegative multiples of the configured
hashtag and mention boosts. -/
theorem calculateMetadataBoost_nonneg (cfg : ScoreConfig) (m : MetaRec) (qt : String)
    (hH : 0 ≤ cfg.HASHTAG_BOOST) (hM : 0 ≤ cfg.MENTION_BOOST) :
    0 ≤ calculateMetadataBoost cfg m qt := by
  unfold calculateMetadataBoost
  have h1 : (0:ℚ) ≤ ((m.hashtags.map (fun t => String.mk (lstripCharL '#' (strToLower t).data))).filter
      (fun tag => ((pyWords qt).map strToLower).any (fun term => pyInStr term tag))).length := by
    positivity
  have h2 : (0:ℚ) ≤ ((m.mentions.map (fun t => String.mk (lstripCharL '@' (strToLower t).data))).filter
      (fun mention => ((pyWords qt).map strToLower).any (fun term => pyInStr term mention))).length := by
    positivity
  dsimp only
  split <;> split <;> positivity

/-- The per-label boost is nonnegative under the nonnegativity of the
configured boosts (the `getattr` default `0.1` covers the rest). -/
theorem typeBoost_nonneg (cfg : ScoreConfig) (label : String)
    (hP : 0 ≤ cfg.PERSON_BOOST) (hL : 0 ≤ cfg.LOCATION_BOOST)
    (hE : 0 ≤ cfg.EVENT_BOOST) : 0 ≤ typeBoost cfg label := by
  unfold typeBoost
  split_ifs <;> first | assumption | norm_num

/-- The entity-boost fold only ever adds nonnegative amounts. -/
theorem calculateEntityBoost_nonneg (cfg : ScoreConfig) (qes des : List Entity)
    (ex : Bool) (hP : 0 ≤ cfg.PERSON_BOOST) (hL : 0 ≤ cfg.LOCATION_BOOST)
    (hE : 0 ≤ cfg.EVENT_BOOST) : 0 ≤ calculateEntityBoost cfg qes des ex := by
  unfold calculateEntityBoost
  suffices h : ∀ (l : List Entity) (acc : ℚ), 0 ≤ acc →
      0 ≤ l.foldl (fun boost qe =>
        if ex = true then boost + typeBoost cfg qe.label
        else if !(strMemEntities qe.label des) then boost else boost) acc from
    h qes 0 le_rfl
  intro l
  induction l with
  | nil => intro acc h; exact h
  | cons e rest ih =>
    intro acc h
    rw [List.foldl_cons]
    apply ih
    split
    · have := typeBoost_nonneg cfg e.label hP hL hE
      linarith
    · split
      · exact h
      · exact h

/-- The person boost is always zero: the membership test
`'PERSON' in doc_entities` compares a string against dictionaries. -/
theorem calculatePersonBoost_eq_zero (cfg : ScoreConfig) (qes des : List Entity) :
    calculatePersonBoost cfg qes des = 0 := by
  simp [calculatePersonBoost]

/-- The score breakdown is exactly the sum of its components. -/
theorem calculateScores_sum (cfg : ScoreConfig) (d : ℚ) (qt : List String)
    (qtext : String) (qe : Option Entity) (de : List Entity) (md : Option MetaRec)
    (ex : Bool) :
    (calculateScores cfg d qt qtext qe de md ex).final_score =
      (calculateScores cfg d qt qtext qe de md ex).initial_score +
      (calculateScores cfg d qt qtext qe de md ex).term_boost +
      (calculateScores cfg d qt qtext qe de md ex).metadata_boost +
      (calculateScores cfg d qt qtext qe de md ex).entity_boost +
      (calculateScores cfg d qt qtext qe de md ex).person_boost := rfl

/-- The term boost is nonnegative. -/
theorem calculateScores_term_nonneg (cfg : ScoreConfig) (d : ℚ) (qt : List String)
    (qtext : String) (qe : Option Entity) (de : List Entity) (md : Option MetaRec)
    (ex : Bool) (hX : 0 ≤ cfg.EXACT_MATCH_BOOST) :
    0 ≤ (calculateScores cfg d qt qtext qe de md ex).term_boost := by
  unfold calculateScores
  dsimp only
  split_ifs <;>
    first
      | exact le_rfl
      | exact mul_nonneg (calculateTermOverlap_nonneg qt _) hX
      | positivity

/-- The metadata boost is nonnegative. -/
theorem calculateScores_meta_nonneg (cfg : ScoreConfig) (d : ℚ) (qt : List String)
    (qtext : String) (qe : Option Entity) (de : List Entity) (md : Option MetaRec)
    (ex : Bool) (hH : 0 ≤ cfg.HASHTAG_BOOST) (hM : 0 ≤ cfg.MENTION_BOOST) :
    0 ≤ (calculateScores cfg d qt qtext qe de md ex).metadata_boost := by
  unfold calculateScores
  dsimp only
  cases md with
  | some m => exact calculateMetadataBoost_nonneg cfg m qtext hH hM
  | none => exact le_rfl

/-- The entity boost is nonnegative. -/
theorem calculateScores_entity_nonneg (cfg : ScoreConfig) (d : ℚ) (qt : List String)
    (qtext : String) (qe : Option Entity) (de : List Entity) (md : Option MetaRec)
    (ex : Bool) (hP : 0 ≤ cfg.PERSON_BOOST) (hL : 0 ≤ cfg.LOCATION_BOOST)
    (hE : 0 ≤ cfg.EVENT_BOOST) :
    0 ≤ (calculateScores cfg d qt qtext qe de md ex).entity_boost := by
  unfold calculateScores
  dsimp only
  split
  · split
    · exact calculateEntityBoost_nonneg cfg _ de ex hP hL hE
    · exact le_rfl
  · exact le_rfl

/-- The person boost is nonnegative (it is in fact zero). -/
theorem calculateScores_person_nonneg (cfg : ScoreConfig) (d : ℚ) (qt : List String)
    (qtext : String) (qe : Option Entity) (de : List Entity) (md : Option MetaRec)
    (ex : Bool) :
    0 ≤ (calculateScores cfg d qt qtext qe de md ex).person_boost := by
  unfold calculateScores
  dsimp only
  split
  · split <;> simp [calculatePersonBoost_eq_zero]
  · exact le_rfl

/-- Under nonnegative configured boosts the final score dominates the
initial score. -/
theorem calculateScores_final_ge_initial (cfg : ScoreConfig) (d : ℚ)
    (qt : List String) (qtext : String) (qe : Option Entity) (de : List Entity)
    (md : Option MetaRec) (ex : Bool)
    (hX : 0 ≤ cfg.EXACT_MATCH_BOOST) (hH : 0 ≤ cfg.HASHTAG_BOOST)
    (hM : 0 ≤ cfg.MENTION_BOOST) (hP : 0 ≤ cfg.PERSON_BOOST)
    (hL : 0 ≤ cfg.LOCATION_BOOST) (hE : 0 ≤ cfg.EVENT_BOOST) :
    (calculateScores cfg d qt qtext qe de md ex).initial_score ≤
      (calculateScores cfg d qt qtext qe de md ex).final_score := by
  have hs := calculateScores_sum cfg d qt qtext qe de md ex
  have h1 := calculateScores_term_nonneg cfg d qt qtext qe de md ex hX
  have h2 := calculateScores_meta_nonneg cfg d qt qtext qe de md ex hH hM
  have h3 := calculateScores_entity_nonneg cfg d qt qtext qe de md ex hP hL hE
  have h4 := calculateScores_person_nonneg cfg d qt qtext qe de md ex
  linarith

/-- Insertion preserves membership. -/
theorem insertByScore_mem (x r : RankedResult) :
    ∀ l : List RankedResult, r ∈ insertByScore x l → r = x ∨ r ∈ l := by
  intro l
  induction l with
  | nil =>
    intro h
    simp [insertByScore] at h
    exact Or.inl h
  | cons y ys ih =>
    intro h
    unfold insertByScore at h
    split at h
    · exact List.mem_cons.mp h
    · rcases List.mem_cons.mp h with h | h
      · exact Or.inr (by simp [h])
      · rcases ih h with h | h
        · exact Or.inl h
        · exact Or.inr (by simp [h])

/-- Stable sorting preserves membership. -/
theorem sortByScoreDesc_mem (r : RankedResult) :
    ∀ l : List RankedResult, r ∈ sortByScoreDesc l → r ∈ l := by
  intro l
  induction l with
  | nil => intro h; simp [sortByScoreDesc] at h
  | cons x xs ih =>
    intro h
    unfold sortByScoreDesc at h
    rcases insertByScore_mem x r (sortByScoreDesc xs) h with h | h
    · simp [h]
    · simp [ih h]

/-- Loop invariant of `rerank_results`: every emitted result carries
the score breakdown `calculate_scores` computed for its document, and
passed the relevance filter. -/
theorem rerankLoop_inv (cfg : ScoreConfig) (extract : String → List Entity)
    (qt : List String) (qtext : String) (ent : Option Entity)
    (P : RankedResult → Prop)
    (hNew : ∀ raw : RawResult,
      (calculateScores cfg raw.distance qt qtext ent (extract (pyStrip raw.document))
          raw.metadata raw.exact_match).final_score ≥ cfg.MIN_RELEVANCE_SCORE →
      P ⟨raw.document, raw.metadata,
        (calculateScores cfg raw.distance qt qtext ent (extract (pyStrip raw.document))
          raw.metadata raw.exact_match).final_score,
        calculateScores cfg raw.distance qt qtext ent (extract (pyStrip raw.document))
          raw.metadata raw.exact_match⟩) :
    ∀ (results : List RawResult) (seen : List String) (acc : List RankedResult),
      (∀ r ∈ acc, P r) → ∀ r ∈ rerankLoop cfg extract qt qtext ent results seen acc, P r := by
  intro results
  induction results with
  | nil =>
    intro seen acc hacc r hr
    exact hacc r (sortByScoreDesc_mem r acc hr)
  | cons raw rest ih =>
    intro seen acc hacc r hr
    unfold rerankLoop at hr
    dsimp only at hr
    split at hr
    · exact ih seen acc hacc r hr
    · split at hr
      · rename_i hfilter
        have hacc1 : ∀ r ∈ acc ++ [(⟨raw.document, raw.metadata,
            (calculateScores cfg raw.distance qt qtext ent (extract (pyStrip raw.document))
              raw.metadata raw.exact_match).final_score,
            calculateScores cfg raw.distance qt qtext ent (extract (pyStrip raw.document))
              raw.metadata raw.exact_match⟩ : RankedResult)], P r := by
          intro r hr
          rcases List.mem_append.mp hr with h | h
          · exact hacc r h
          · rw [List.mem_singleton.mp h]
            exact hNew raw hfilter
        split at hr
        · split at hr
          · exact hacc1 r (sortByScoreDesc_mem r _ hr)
          · exact ih _ _ hacc1 r hr
        · exact ih _ _ hacc1 r hr
      · exact ih _ _ hacc r hr

/-- C3: every result emitted by the re-ranker satisfies the score
invariants: the final score is exactly the sum of the breakdown
components, dominates the initial score (given nonnegative configured
boosts), and clears `MIN_RELEVANCE_SCORE`; the exposed
`relevance_score` equals the breakdown final score. -/
theorem c3_rerank_score_invariants (cfg : ScoreConfig)
    (extract : String → List Entity) (results : List RawResult)
    (qtext : String) (ent : Option Entity)
    (hX : 0 ≤ cfg.EXACT_MATCH_BOOST) (hH : 0 ≤ cfg.HASHTAG_BOOST)
    (hM : 0 ≤ cfg.MENTION_BOOST) (hP : 0 ≤ cfg.PERSON_BOOST)
    (hL : 0 ≤ cfg.LOCATION_BOOST) (hE : 0 ≤ cfg.EVENT_BOOST) :
    ∀ r ∈ rerankResults cfg extract results qtext ent,
      r.score_breakdown.final_score =
        r.score_breakdown.initial_score + r.score_breakdown.term_boost +
        r.score_breakdown.metadata_boost + r.score_breakdown.entity_boost +
        r.score_breakdown.person_boost ∧
      r.score_breakdown.initial_score ≤ r.score_breakdown.final_score ∧
      cfg.MIN_RELEVANCE_SCORE ≤ r.score_breakdown.final_score ∧
      r.relevance_score = r.score_breakdown.final_score := by
  intro r hr
  unfold rerankResults at hr
  refine rerankLoop_inv cfg extract (extractSearchTerms qtext) qtext ent
    (fun r => r.score_breakdown.final_score =
        r.score_breakdown.initial_score + r.score_breakdown.term_boost +
        r.score_breakdown.metadata_boost + r.score_breakdown.entity_boost +
        r.score_breakdown.person_boost ∧
      r.score_breakdown.initial_score ≤ r.score_breakdown.final_score ∧
      cfg.MIN_RELEVANCE_SCORE ≤ r.score_breakdown.final_score ∧
      r.relevance_score = r.score_breakdown.final_score)
    ?_ results [] [] (by simp) r hr
  intro raw hfilter
  refine ⟨calculateScores_sum cfg _ _ _ _ _ _ _, ?_, hfilter, rfl⟩
  exact calculateScores_final_ge_initial cfg _ _ _ _ _ _ _ hX hH hM hP hL hE

/-- C3 witness: the default configuration, one concrete document. -/
theorem c3_rerank_score_invariants_witness :
    (⟨"nitk campus", none, 1,
        ⟨1, 0, 0, 0, 0, 1⟩⟩ : RankedResult).score_breakdown.final_score =
      (⟨"nitk campus", none, 1, ⟨1, 0, 0, 0, 0, 1⟩⟩ : RankedResult).score_breakdown.initial_score +
      (⟨"nitk campus", none, 1, ⟨1, 0, 0, 0, 0, 1⟩⟩ : RankedResult).score_breakdown.term_boost +
      (⟨"nitk campus", none, 1, ⟨1, 0, 0, 0, 0, 1⟩⟩ : RankedResult).score_breakdown.metadata_boost +
      (⟨"nitk campus", none, 1, ⟨1, 0, 0, 0, 0, 1⟩⟩ : RankedResult).score_breakdown.entity_boost +
      (⟨"nitk campus", none, 1, ⟨1, 0, 0, 0, 0, 1⟩⟩ : RankedResult).score_breakdown.person_boost ∧
    (⟨"nitk campus", none, 1, ⟨1, 0, 0, 0, 0, 1⟩⟩ : RankedResult).score_breakdown.initial_score ≤
      (⟨"nitk campus", none, 1, ⟨1, 0, 0, 0, 0, 1⟩⟩ : RankedResult).score_breakdown.final_score ∧
    defaultScoreConfig.MIN_RELEVANCE_SCORE ≤
      (⟨"nitk campus", none, 1, ⟨1, 0, 0, 0, 0, 1⟩⟩ : RankedResult).score_breakdown.final_score ∧
    (⟨"nitk campus", none, 1, ⟨1, 0, 0, 0, 0, 1⟩⟩ : RankedResult).relevance_score =
      (⟨"nitk campus", none, 1, ⟨1, 0, 0, 0, 0, 1⟩⟩ : RankedResult).score_breakdown.final_score :=
  c3_rerank_score_invariants defaultScoreConfig (extractEntities exEmpty) [rawDup]
    "campus info" none
    (by with_unfolding_all decide) (by with_unfolding_all decide)
    (by with_unfolding_all decide) (by with_unfolding_all decide)
    (by with_unfolding_all decide) (by with_unfolding_all decide)
    ⟨"nitk campus", none, 1, ⟨1, 0, 0, 0, 0, 1⟩⟩
    (by with_unfolding_all decide)

/-- Longest-common-subsequence length is symmetric. -/
theorem lcsLen_comm : (a b : List Char) → lcsLen a b = lcsLen b a
  | [], [] => rfl
  | [], _ :: _ => by simp [lcsLen]
  | _ :: _, [] => by simp [lcsLen]
  | x :: xs, y :: ys => by
    by_cases h : x = y
    · subst h
      simp only [lcsLen, if_true]
      rw [lcsLen_comm xs ys]
    · simp only [lcsLen]
      rw [if_neg h, if_neg (fun hh => h (Eq.symm hh))]
      rw [lcsLen_comm xs (y :: ys), lcsLen_comm (x :: xs) ys, Nat.max_comm]
termination_by a b => a.length + b.length

/-- `fuzz.ratio` is symmetric. -/
theorem fuzzRatioQ_comm (a b : List Char) : fuzzRatioQ a b = fuzzRatioQ b a := by
  unfold fuzzRatioQ
  rw [lcsLen_comm a b, Nat.add_comm a.length b.length,
    add_comm (a.length : ℚ) (b.length : ℚ)]

/-- Per-position name-part similarity is symmetric. -/
theorem computePartSimilarity_comm (iw ew : ℚ) (p q : String) :
    computePartSimilarity iw ew p q = computePartSimilarity iw ew q p := by
  unfold computePartSimilarity
  by_cases h1 : p = "" ∨ q = ""
  · rw [if_pos h1, if_pos (Or.symm h1)]
  · rw [if_neg h1, if_neg (fun hh => h1 (Or.symm hh))]
    by_cases h2 : p = q
    · rw [if_pos h2, if_pos (Eq.symm h2)]
    · rw [if_neg h2, if_neg (fun hh => h2 (Eq.symm hh))]
      by_cases h3 : p.data.head? = q.data.head? ∧ (p.length = 1 ∨ q.length = 1)
      · rw [if_pos h3, if_pos ⟨Eq.symm h3.1, Or.symm h3.2⟩]
      · rw [if_neg h3, if_neg (fun hh => h3 ⟨Eq.symm hh.1, Or.symm hh.2⟩)]
        rw [fuzzRatioQ_comm]

/-- Positional similarity over two parts lists is symmetric. -/
theorem posSim_comm (iw ew : ℚ) (pa pb : List String) (i : Nat) :
    posSim iw ew pa pb i = posSim iw ew pb pa i := by
  unfold posSim
  cases pa[i]? <;> cases pb[i]? <;>
    first
      | rfl
      | exact computePartSimilarity_comm iw ew _ _

/-- C9: name similarity is symmetric for all inputs; identical nonempty
inputs score 100; two empty inputs score 0 (the guard fires before the
equality shortcut). -/
theorem c9_name_similarity_props :
    (∀ (pd : PersonsData) (iw ew : ℚ) (a b : String),
      nameSimilarity pd iw ew a b = nameSimilarity pd iw ew b a) ∧
    (∀ (pd : PersonsData) (iw ew : ℚ) (a : String), a ≠ "" →
      nameSimilarity pd iw ew a a = 100) ∧
    (∀ (pd : PersonsData) (iw ew : ℚ), nameSimilarity pd iw ew "" "" = 0) := by
  refine ⟨?_, ?_, ?_⟩
  · intro pd iw ew a b
    unfold nameSimilarity
    by_cases h1 : a = "" ∨ b = ""
    · rw [if_pos h1, if_pos (Or.symm h1)]
    · rw [if_neg h1, if_neg (fun hh => h1 (Or.symm hh))]
      dsimp only
      by_cases h2 : normalizeName pd a = normalizeName pd b
      · rw [if_pos h2, if_pos (Eq.symm h2)]
      · rw [if_neg h2, if_neg (fun hh => h2 (Eq.symm hh))]
        by_cases h3 : pyWords (normalizeName pd a) = [] ∨ pyWords (normalizeName pd b) = []
        · rw [if_pos h3, if_pos (Or.symm h3)]
        · rw [if_neg h3, if_neg (fun hh => h3 (Or.symm hh))]
          have hm : max (pyWords (normalizeName pd b)).length
              (pyWords (normalizeName pd a)).length =
              max (pyWords (normalizeName pd a)).length
                (pyWords (normalizeName pd b)).length := Nat.max_comm _ _
          rw [hm]
          have hsims : (List.range (max (pyWords (normalizeName pd a)).length
              (pyWords (normalizeName pd b)).length)).map
                (posSim iw ew (pyWords (normalizeName pd a)) (pyWords (normalizeName pd b))) =
              (List.range (max (pyWords (normalizeName pd a)).length
                (pyWords (normalizeName pd b)).length)).map
                (posSim iw ew (pyWords (normalizeName pd b)) (pyWords (normalizeName pd a))) :=
            List.map_congr_left (fun i _ => posSim_comm iw ew _ _ i)
          rw [← hsims]
          by_cases hk : isKnownPerson pd a = true ∨ isKnownPerson pd b = true
          · rw [if_pos hk, if_pos (Or.symm hk)]
          · rw [if_neg hk, if_neg (fun hh => hk (Or.symm hh))]
  · intro pd iw ew a ha
    unfold nameSimilarity
    rw [if_neg (by simpa using ha : ¬(a = "" ∨ a = ""))]
    dsimp only
    rw [if_pos rfl]
  · intro pd iw ew
    unfold nameSimilarity
    rw [if_pos (Or.inl rfl)]

/-- C9 witness: a concrete nonempty identical pair scores 100. -/
theorem c9_name_similarity_props_witness :
    nameSimilarity pdTrivial (2/5) (3/5) "ab" "ab" = 100 :=
  c9_name_similarity_props.2.1 pdTrivial (2/5) (3/5) "ab" (by decide)

/-- `splitOnP` never returns the empty list of pieces. -/
theorem splitOnP_ne_nil (p : Char → Bool) (l : List Char) : splitOnP p l ≠ [] := by
  cases l with
  | nil => simp [splitOnP]
  | cons c cs =>
    unfold splitOnP
    split
    · simp
    · dsimp only
      split <;> simp

/-- Every character inside a piece of `splitOnP` fails the predicate. -/
theorem splitOnP_mem_false (p : Char → Bool) :
    ∀ (l : List Char), ∀ w ∈ splitOnP p l, ∀ c ∈ w, p c = false := by
  intro l
  induction l with
  | nil =>
    intro w hw c hc
    simp [splitOnP] at hw
    subst hw
    exact absurd hc (List.not_mem_nil c)
  | cons x xs ih =>
    intro w hw c hc
    unfold splitOnP at hw
    dsimp only at hw
    split at hw
    · rcases List.mem_cons.mp hw with h | h
      · subst h
        exact absurd hc (List.not_mem_nil c)
      · exact ih w h c hc
    · rename_i hx
      rcases hs : splitOnP p xs with _ | ⟨h0, t0⟩
      · exact absurd hs (splitOnP_ne_nil p xs)
      · rw [hs] at hw
        dsimp only at hw
        rcases List.mem_cons.mp hw with h | h
        · subst h
          rcases List.mem_cons.mp hc with h | h
          · subst h
            exact Bool.not_eq_true _ ▸ (by simpa using hx)
          · exact ih h0 (by simp [hs]) c h
        · exact ih w (by simp [hs, h]) c hc

/-- Pieces of `pyWordsL` are nonempty and predicate-free. -/
theorem pyWordsL_mem (l : List Char) :
    ∀ w ∈ pyWordsL l, w ≠ [] ∧ ∀ c ∈ w, isWsChar c = false := by
  intro w hw
  unfold pyWordsL at hw
  have h := List.mem_filter.mp hw
  refine ⟨by simpa using h.2, ?_⟩
  exact splitOnP_mem_false isWsChar l w h.1

/-- When no character matches, `splitOnP` returns a single piece. -/
theorem splitOnP_all_false (p : Char → Bool) :
    ∀ (l : List Char), (∀ c ∈ l, p c = false) → splitOnP p l = [l] := by
  intro l
  induction l with
  | nil => intro _; rfl
  | cons x xs ih =>
    intro h
    unfold splitOnP
    rw [ih (fun c hc => h c (by simp [hc]))]
    split
    · rename_i hx
      rw [h x (by simp)] at hx
      cases hx
    · rfl

/-- Splitting after a predicate-free word prefixes the first piece. -/
theorem splitOnP_word_append (p : Char → Bool) (w l : List Char)
    (hw : ∀ c ∈ w, p c = false) :
    splitOnP p (w ++ l) =
      (w ++ (splitOnP p l).headD []) :: (splitOnP p l).tail := by
  induction w with
  | nil =>
    rcases hs : splitOnP p l with _ | ⟨h0, t0⟩
    · exact absurd hs (splitOnP_ne_nil p l)
    · simp [hs]
  | cons x xs ih =>
    have hx : p x = false := hw x (by simp)
    have ih2 := ih (fun c hc => hw c (by simp [hc]))
    rcases hs : splitOnP p l with _ | ⟨h0, t0⟩
    · exact absurd hs (splitOnP_ne_nil p l)
    · simp only [List.cons_append]
      unfold splitOnP
      dsimp only
      rw [ih2, hs]
      simp [hx]

/-- A `getLast?` value is a member of the list. -/
theorem mem_of_getLast_some :
    ∀ (l : List Char) (c : Char), l.getLast? = some c → c ∈ l := by
  intro l
  induction l with
  | nil => intro c h; cases h
  | cons x xs ih =>
    intro c h
    cases xs with
    | nil =>
      simp [List.getLast?] at h
      simp [h]
    | cons y ys =>
      rw [List.getLast?_cons_cons] at h
      exact List.mem_cons.mpr (Or.inr (ih c h))

/-- Splitting at a separator character peels an empty piece. -/
theorem splitOnP_cons_true (p : Char → Bool) (c : Char) (cs : List Char)
    (h : p c = true) : splitOnP p (c :: cs) = [] :: splitOnP p cs := by
  unfold splitOnP
  dsimp only
  rw [if_pos h]
  cases cs <;> rfl

/-- `joinSpL` of a nonempty list of nonempty words is nonempty. -/
theorem joinSpL_ne_nil :
    ∀ (wsL : List (List Char)), wsL ≠ [] → (∀ w ∈ wsL, w ≠ []) →
      joinSpL wsL ≠ [] := by
  intro wsL h0 h1
  match wsL with
  | [w] =>
    simpa [joinSpL] using h1 w (by simp)
  | w :: r :: t =>
    have hw : w ≠ [] := h1 w (by simp)
    rcases w with _ | ⟨x, xs⟩
    · exact absurd rfl hw
    · simp [joinSpL]

/-- Words split back out of a single-space join. -/
theorem pyWordsL_joinSpL :
    ∀ (wsL : List (List Char)),
      (∀ w ∈ wsL, w ≠ [] ∧ ∀ c ∈ w, isWsChar c = false) →
      pyWordsL (joinSpL wsL) = wsL := by
  intro wsL
  induction wsL with
  | nil => intro _; rfl
  | cons w rest ih =>
    intro hinv
    have hw := hinv w (by simp)
    cases rest with
    | nil =>
      show pyWordsL (joinSpL [w]) = [w]
      unfold pyWordsL
      rw [show joinSpL [w] = w from rfl,
        splitOnP_all_false isWsChar w hw.2]
      simp [hw.1]
    | cons r t =>
      have hrt : pyWordsL (joinSpL (r :: t)) = r :: t :=
        ih (fun u hu => hinv u (by simp [hu]))
      show pyWordsL (w ++ ' ' :: joinSpL (r :: t)) = w :: r :: t
      unfold pyWordsL
      rw [splitOnP_word_append isWsChar w (' ' :: joinSpL (r :: t)) hw.2,
        splitOnP_cons_true isWsChar ' ' (joinSpL (r :: t)) (by decide)]
      unfold pyWordsL at hrt
      simp only [List.headD_cons, List.tail_cons, List.append_nil]
      rw [List.filter_cons, hrt]
      simp [hw.1]

/-- Appending a space after each word flattens to join-plus-space. -/
theorem flatten_words_space :
    ∀ (wsL : List (List Char)), wsL ≠ [] →
      (wsL.map (fun w => w ++ [' '])).flatten = joinSpL wsL ++ [' '] := by
  intro wsL h0
  match wsL with
  | [w] => simp [joinSpL]
  | w :: r :: t =>
    have ih := flatten_words_space (r :: t) (by simp)
    rw [List.map_cons, List.flatten_cons, ih]
    show (w ++ [' ']) ++ (joinSpL (r :: t) ++ [' ']) =
      (w ++ ' ' :: joinSpL (r :: t)) ++ [' ']
    simp

/-- No newline occurs in a join of whitespace-free words. -/
theorem joinSpL_no_newline :
    ∀ (wsL : List (List Char)),
      (∀ w ∈ wsL, ∀ c ∈ w, isWsChar c = false) →
      ∀ c ∈ joinSpL wsL, decide (c = '\n') = false := by
  intro wsL
  induction wsL with
  | nil => intro _ c hc; exact absurd hc (List.not_mem_nil c)
  | cons w rest ih =>
    intro hinv c hc
    have hcw : ∀ c ∈ w, decide (c = '\n') = false := by
      intro d hd
      have := hinv w (by simp) d hd
      rcases Decidable.em (d = '\n') with h | h
      · rw [h] at this
        exact absurd this (by decide)
      · simp [h]
    cases rest with
    | nil => exact hcw c hc
    | cons r t =>
      have hc2 : c ∈ w ++ ' ' :: joinSpL (r :: t) := hc
      rcases List.mem_append.mp hc2 with h | h
      · exact hcw c h
      · rcases List.mem_cons.mp h with h | h
        · simp [h]
        · exact ih (fun u hu => hinv u (by simp [hu])) c h

/-- The first character of a join of clean words is not whitespace. -/
theorem joinSpL_head_not_ws :
    ∀ (wsL : List (List Char)),
      (∀ w ∈ wsL, w ≠ [] ∧ ∀ c ∈ w, isWsChar c = false) →
      ∀ c, (joinSpL wsL).head? = some c → isWsChar c = false := by
  intro wsL hinv c hc
  match wsL with
  | [] => cases hc
  | [w] =>
    have hw := hinv w (by simp)
    rcases w with _ | ⟨x, xs⟩
    · exact absurd rfl hw.1
    · rw [show joinSpL [x :: xs] = x :: xs from rfl] at hc
      simp at hc
      exact hc ▸ hw.2 x (by simp)
  | w :: r :: t =>
    have hw := hinv w (by simp)
    rcases w with _ | ⟨x, xs⟩
    · exact absurd rfl hw.1
    · rw [show joinSpL ((x :: xs) :: r :: t) =
        x :: (xs ++ ' ' :: joinSpL (r :: t)) from rfl] at hc
      simp at hc
      exact hc ▸ hw.2 x (by simp)

/-- The last character of a join of clean words is not whitespace. -/
theorem joinSpL_last_not_ws :
    ∀ (wsL : List (List Char)),
      (∀ w ∈ wsL, w ≠ [] ∧ ∀ c ∈ w, isWsChar c = false) →
      ∀ c, (joinSpL wsL).getLast? = some c → isWsChar c = false := by
  intro wsL
  induction wsL with
  | nil => intro _ c hc; cases hc
  | cons w rest ih =>
    intro hinv c hc
    cases rest with
    | nil =>
      have hw := hinv w (by simp)
      rw [show joinSpL [w] = w from rfl] at hc
      exact hw.2 c (mem_of_getLast_some w c hc)
    | cons r t =>
      have hinv2 : ∀ u ∈ r :: t, u ≠ [] ∧ ∀ c ∈ u, isWsChar c = false :=
        fun u hu => hinv u (by simp [hu])
      have hne : joinSpL (r :: t) ≠ [] :=
        joinSpL_ne_nil (r :: t) (by simp) (fun u hu => (hinv2 u hu).1)
      rw [show joinSpL (w :: r :: t) = w ++ ' ' :: joinSpL (r :: t) from rfl,
        List.getLast?_append_of_ne_nil w (by simp),
        show (' ' :: joinSpL (r :: t) : List Char) =
          [' '] ++ joinSpL (r :: t) from rfl,
        List.getLast?_append_of_ne_nil [' '] hne] at hc
      exact ih hinv2 c hc

/-- `dropWhile` is the identity when the head fails the predicate. -/
theorem dropWhile_of_head_not (p : Char → Bool) (l : List Char)
    (h : ∀ c, l.head? = some c → p c = false) : l.dropWhile p = l := by
  cases l with
  | nil => rfl
  | cons x xs =>
    exact List.dropWhile_cons_of_neg (by simp [h x rfl])

/-- Stripping does nothing when both ends are not whitespace. -/
theorem trimL_eq_self (l : List Char)
    (hHead : ∀ c, l.head? = some c → isWsChar c = false)
    (hLast : ∀ c, l.getLast? = some c → isWsChar c = false) :
    trimL l = l := by
  unfold trimL
  rw [dropWhile_of_head_not isWsChar l hHead,
    dropWhile_of_head_not isWsChar l.reverse
      (fun c hc => hLast c ((List.head?_reverse l) ▸ hc)),
    List.reverse_reverse]

/-- Stripping removes exactly one trailing space from a clean join. -/
theorem trimL_append_space (l : List Char) (hne : l ≠ [])
    (hHead : ∀ c, l.head? = some c → isWsChar c = false)
    (hLast : ∀ c, l.getLast? = some c → isWsChar c = false) :
    trimL (l ++ [' ']) = l := by
  unfold trimL
  have h1 : (l ++ [' ']).dropWhile isWsChar = l ++ [' '] := by
    apply dropWhile_of_head_not
    intro c hc
    rcases l with _ | ⟨x, xs⟩
    · exact absurd rfl hne
    · simp at hc
      exact hc ▸ hHead x rfl
  rw [h1, show (l ++ [' ']).reverse = ' ' :: l.reverse by simp,
    List.dropWhile_cons_of_pos (by decide),
    dropWhile_of_head_not isWsChar l.reverse
      (fun c hc => hLast c ((List.head?_reverse l) ▸ hc)),
    List.reverse_reverse]

/-- The words of any string are nonempty and whitespace-free. -/
theorem pyWords_inv (R : String) :
    ∀ w ∈ pyWords R, w.data ≠ [] ∧ ∀ c ∈ w.data, isWsChar c = false := by
  intro w hw
  unfold pyWords at hw
  rcases List.mem_map.mp hw with ⟨u, hu, rfl⟩
  exact pyWordsL_mem R.data u hu

/-- Stripping a single-space join of clean words is the identity. -/
theorem pyStrip_joinWords (ws : List String)
    (hinv : ∀ w ∈ ws, w.data ≠ [] ∧ ∀ c ∈ w.data, isWsChar c = false) :
    pyStrip (joinWords ws) = joinWords ws := by
  cases ws with
  | nil => rfl
  | cons w rest =>
    have hinvL : ∀ u ∈ (w :: rest).map String.data,
        u ≠ [] ∧ ∀ c ∈ u, isWsChar c = false := by
      intro u hu
      rcases List.mem_map.mp hu with ⟨s, hs, rfl⟩
      exact hinv s hs
    show String.mk (trimL (joinSpL ((w :: rest).map String.data))) = _
    rw [trimL_eq_self _ (joinSpL_head_not_ws _ hinvL)
      (joinSpL_last_not_ws _ hinvL)]
    rfl

/-- Restreaming a single-line, single-spaced cached text and
re-assembling the chunks strips back to the original text. -/
theorem concat_restream_joinWords (ws : List String)
    (hinv : ∀ w ∈ ws, w.data ≠ [] ∧ ∀ c ∈ w.data, isWsChar c = false) :
    pyStrip (concatChunks (restreamCached (joinWords ws))) = joinWords ws := by
  cases ws with
  | nil => rfl
  | cons w rest =>
    have hinvL : ∀ u ∈ (w :: rest).map String.data,
        u ≠ [] ∧ ∀ c ∈ u, isWsChar c = false := by
      intro u hu
      rcases List.mem_map.mp hu with ⟨s, hs, rfl⟩
      exact hinv s hs
    have hneL : (w :: rest).map String.data ≠ [] := by simp
    have h1 : splitOnP (· = '\n') (joinSpL ((w :: rest).map String.data)) =
        [joinSpL ((w :: rest).map String.data)] :=
      splitOnP_all_false _ _
        (joinSpL_no_newline _ (fun u hu => (hinvL u hu).2))
    show pyStrip (concatChunks (restreamLinesChunks
      ((splitOnP (· = '\n')
        (joinSpL ((w :: rest).map String.data))).map String.mk))) = _
    rw [h1]
    show pyStrip (concatChunks ((pyWords (String.mk
      (joinSpL ((w :: rest).map String.data)))).map (· ++ " "))) = _
    have h2 : pyWords (String.mk (joinSpL ((w :: rest).map String.data))) =
        w :: rest := by
      unfold pyWords
      show (pyWordsL (joinSpL ((w :: rest).map String.data))).map String.mk = _
      rw [pyWordsL_joinSpL _ hinvL, List.map_map,
        show String.mk ∘ String.data = id from rfl, List.map_id]
    rw [h2]
    have h3 : concatChunks ((w :: rest).map (· ++ " ")) =
        String.mk (joinSpL ((w :: rest).map String.data) ++ [' ']) := by
      unfold concatChunks
      rw [List.map_map]
      have h4 : ((w :: rest).map (fun s => ((s ++ " ").data))) =
          ((w :: rest).map String.data).map (fun u => u ++ [' ']) := by
        rw [List.map_map]
        exact List.map_congr_left (fun s _ => String.data_append s " ")
      rw [show (String.data ∘ fun s => s ++ " ") =
        (fun s => (s ++ " ").data) from rfl, h4,
        flatten_words_space _ hneL]
    rw [h3]
    show String.mk (trimL (joinSpL ((w :: rest).map String.data) ++ [' '])) = _
    rw [trimL_append_space _
      (joinSpL_ne_nil _ hneL (fun u hu => (hinvL u hu).1))
      (joinSpL_head_not_ws _ hinvL) (joinSpL_last_not_ws _ hinvL)]
    rfl

/-- C4 counterexample: a cache-eligible question answered by the LLM
with the two-line text `Line one a\nLine two b` is served differently
on the cache hit: `_handle_cached_response` re-streams each line
word-by-word with a trailing space after every word, so the second
response carries an extra space before the newline and is not
byte-identical to the first. -/
theorem c4_cached_replay_counterexample :
    (routeQuery envTwoLine stEmpty 5 "tell me about the campus" "web").toOption.map
        (fun p => p.1.response) = some "Line one a\nLine two b" ∧
    ((routeQuery envTwoLine stEmpty 5 "tell me about the campus" "web").toOption.bind
        (fun p => (routeQuery envTwoLine p.2 6 "tell me about the campus"
          "web").toOption.map (fun p2 => p2.1.response))) =
      some "Line one a \nLine two b" ∧
    ("Line one a \nLine two b" : String) ≠ "Line one a\nLine two b" :=
  ⟨by with_unfolding_all decide, by with_unfolding_all decide, by decide⟩

/-- An MD5 hex digest is never the empty string. -/
theorem md5Hex_ne_empty (s : String) : md5Hex s ≠ "" := by
  unfold md5Hex
  rcases h : md5Blocks (md5Pad (utf8Bytes s))
      (0x67452301, 0xefcdab89, 0x98badcfe, 0x10325476) with ⟨a, b, c, d⟩
  dsimp only
  intro hc
  have hd : (String.mk (hexWord32 a ++ hexWord32 b ++ hexWord32 c ++
      hexWord32 d)).data = ("" : String).data := by rw [hc]
  rw [show ("" : String).data = [] from rfl] at hd
  have h4 : hexWord32 a ≠ [] := by
    unfold hexWord32
    rw [show List.range 4 = [0, 1, 2, 3] from rfl]
    simp
  simp at hd
  exact h4 hd.1

/-- A key found in the store is still found after the in-place update. -/
theorem find?_map_update (fs : CacheFs) (k : String) (v : CacheFile)
    (h : (fs.find? (fun p => p.1 = k)).isSome = true) :
    (fs.map (fun p => if p.1 = k then (k, v) else p)).find?
      (fun p => p.1 = k) = some (k, v) := by
  induction fs with
  | nil => simp at h
  | cons p ps ih =>
    by_cases hp : p.1 = k
    · simp only [List.map_cons, if_pos hp]
      rw [List.find?_cons_of_pos _ (by simp)]
    · rw [List.find?_cons_of_neg _ (by simp [hp])] at h
      simp only [List.map_cons, if_neg hp]
      rw [List.find?_cons_of_neg _ (by simp [hp])]
      exact ih h

/-- A key absent from the store is found after appending it. -/
theorem find?_append_new (fs : CacheFs) (k : String) (v : CacheFile)
    (h : fs.find? (fun p => p.1 = k) = none) :
    (fs ++ [(k, v)]).find? (fun p => p.1 = k) = some (k, v) := by
  induction fs with
  | nil => simp
  | cons p ps ih =>
    by_cases hp : p.1 = k
    · rw [List.find?_cons_of_pos _ (by simp [hp])] at h
      cases h
    · rw [List.find?_cons_of_neg _ (by simp [hp])] at h
      rw [List.cons_append, List.find?_cons_of_neg _ (by simp [hp])]
      exact ih h

/-- Reading back the key just written returns the written file. -/
theorem lookupFs_writeFs_self (fs : CacheFs) (k : String) (v : CacheFile) :
    lookupFs (writeFs fs k v) k = some v := by
  unfold lookupFs writeFs
  rcases hf : fs.find? (fun p => p.1 = k) with _ | q
  · rw [if_neg (by simp [hf])]
    rw [find?_append_new fs k v hf]
    rfl
  · rw [if_pos (by simp [hf])]
    rw [find?_map_update fs k v (by simp [hf])]
    rfl

/-- A nonzero numeric timestamp within the TTL window is not expired. -/
theorem isExpired_num_false (cfg : CacheCfg) (now t : ℚ) (h0 : t ≠ 0)
    (hTTL : now - t ≤ cfg.maxAgeDays * 86400) :
    isExpired cfg now (some (.num t)) = false := by
  unfold isExpired
  show (if t = 0 then true else decide (now - t > cfg.maxAgeDays * 86400)) = false
  rw [if_neg h0]
  exact decide_eq_false (not_lt.mpr hTTL)

/-- Stamping a timestamp on the response object appends the field. -/
theorem jSet_timestamp (R f : String) (now : ℚ) :
    jSet (cacheResponseObj R f) "timestamp" (.num now) =
      cacheResponseObj R f ++ [("timestamp", JVal.num now)] := rfl

/-- `cache_response` on a truthy key inside the cleanup window: stamp,
write, and leave the rest of the state alone. -/
theorem cacheResponse_write (cfg : CacheCfg) (st : CacheState) (now : ℚ)
    (k R f : String) (hk : k ≠ "")
    (hClean : ¬(now - st.lastCleanup > cfg.cleanupIntervalHours * 3600)) :
    cacheResponse cfg st now k (cacheResponseObj R f) true =
      { fs := writeFs st.fs k (.json (.obj (cacheResponseObj R f ++
          [("timestamp", JVal.num now)]))),
        lastCleanup := st.lastCleanup } := by
  unfold cacheResponse
  rw [if_neg hk]
  show cleanupCache cfg
    { st with fs := writeFs st.fs k (.json (.obj
        (jSet (cacheResponseObj R f) "timestamp" (.num now)))) } now = _
  rw [jSet_timestamp]
  unfold cleanupCache
  rw [if_neg hClean]

/-- `_process_results` under a computed key, a working LLM, caching
enabled, a successful write, and no cleanup due: the full response is
cached under the key with the current timestamp, and the emotion comes
from the response text together with the original question. -/
theorem processResults_success (env : Env) (st : CacheState) (now : ℚ)
    (k : String) (c : Bool) (cq oq f : String) (rs : List RankedResult)
    (hk : k ≠ "")
    (hLlm : ∀ p, (env.llm p).error = none)
    (hCache : env.cacheEnabled = true)
    (hW : env.writeOk = true)
    (hClean : ¬(now - st.lastCleanup > env.ccfg.cleanupIntervalHours * 3600)) :
    ∃ CH : List String,
      processResults env st now (some k) c cq oq f rs =
        { chunks := CH
          emotion := (parseLlmResponse (concatChunks CH)
            (if oq = "" then cq else oq)).2
          cacheSafe := true
          state := { fs := writeFs st.fs k (.json (.obj (cacheResponseObj
              (concatChunks CH) f ++ [("timestamp", JVal.num now)])))
                     lastCleanup := st.lastCleanup }
          consulted := c
          key := some k
          wrote := true
          errored := false } := by
  unfold processResults cacheIfAppropriate
  dsimp only
  rw [hLlm, hCache, hW]
  dsimp only
  rw [cacheResponse_write env.ccfg st now k _ f hk hClean]
  exact ⟨_, rfl⟩

/-- Any outcome of the entity loop is a `_process_results` run. -/
theorem entityLoopRag_shape (env : Env) (st : CacheState) (now : ℚ)
    (key : Option String) (consulted : Bool) (cq oq f : String) :
    ∀ (ents : List Entity) (o : Outcome),
      entityLoopRag env st now key consulted cq oq f ents = some o →
      ∃ rs, o = processResults env st now key consulted cq oq f rs := by
  intro ents
  induction ents with
  | nil => intro o h; exact absurd h (by simp [entityLoopRag])
  | cons e rest ih =>
    intro o h
    unfold entityLoopRag at h
    split at h
    · dsimp only at h
      split at h
      · exact ⟨_, (Option.some_inj.mp h).symm⟩
      · exact ih o h
    · exact ih o h

/-- When the collection answers, the retrieval arm always ends in a
`_process_results` run. -/
theorem ragSearchPath_success (env : Env) (st : CacheState) (now : ℚ)
    (key : Option String) (useCache : Bool) (cq oq f : String) (ents : List Entity)
    (hSem : ∀ qq n, ∃ hits, env.collection.semanticQuery qq n = Except.ok hits) :
    ∃ rs, ragSearchPath env st now key useCache cq oq f ents =
      .ok (processResults env st now key useCache cq oq f rs) := by
  unfold ragSearchPath
  cases hL : entityLoopRag env st now key useCache cq oq f ents with
  | some o =>
    obtain ⟨rs, hrs⟩ :=
      entityLoopRag_shape env st now key useCache cq oq f ents o hL
    exact ⟨rs, by rw [hrs]⟩
  | none =>
    obtain ⟨hits, hh⟩ := hSem cq (env.scfg.DEFAULT_RESULTS * 3)
    unfold semanticSearch
    rw [hh]
    exact ⟨_, rfl⟩

/-- On a cache-eligible query, `_process_rag_query` is the dispatch on
the cached entry under the computed key. -/
theorem processRagQuery_eq_dispatch (env : Env) (st : CacheState) (now : ℚ)
    (q f : String)
    (hTemp : isTemporalQuery env q = false) (hCache : env.cacheEnabled = true) :
    processRagQuery env st now q f =
      ragDispatch env st now (some (getCacheKey (ragCacheQuery env q) f)) true
        (preprocessText q) q f (extractEntities env.excfg (preprocessText q))
        (ragCachedText true (some (getCacheKey (ragCacheQuery env q) f))
          (getCachedResponse env.ccfg st.fs now
            (getCacheKey (ragCacheQuery env q) f))) := by
  unfold processRagQuery
  simp only [hTemp, hCache, Bool.not_false, Bool.and_self, if_pos]

/-- Reading the entry just written under a live timestamp is a hit. -/
theorem getCachedResponse_written (cfg : CacheCfg) (fs : CacheFs)
    (now2 t : ℚ) (k R f : String) (hk : k ≠ "") (h0 : t ≠ 0)
    (hTTL : now2 - t ≤ cfg.maxAgeDays * 86400) :
    getCachedResponse cfg
        (writeFs fs k (.json (.obj (cacheResponseObj R f ++
          [("timestamp", JVal.num t)])))) now2 k =
      some (.obj (cacheResponseObj R f ++ [("timestamp", JVal.num t)])) := by
  unfold getCachedResponse
  rw [if_neg hk, lookupFs_writeFs_self]
  show (if isExpired cfg now2 (jGet (cacheResponseObj R f ++
      [("timestamp", JVal.num t)]) "timestamp") then none
    else some (JVal.obj (cacheResponseObj R f ++
      [("timestamp", JVal.num t)]))) = _
  rw [show jGet (cacheResponseObj R f ++ [("timestamp", JVal.num t)])
      "timestamp" = some (.num t) from rfl,
    isExpired_num_false cfg now2 t h0 hTTL]
  rfl

/-- The cached text of the entry just written is its response text. -/
theorem ragCachedText_written (key : Option String) (t : ℚ) (R f : String) :
    ragCachedText true key
        (some (.obj (cacheResponseObj R f ++ [("timestamp", JVal.num t)]))) =
      .ok (some R) := rfl

/-- When the emotion already comes from the response content, or the
question carries no greeting/goodbye cue, dropping the question from
the emotion detection does not change its result. -/
theorem detectEmotion_no_question_cue (text q : String)
    (h : contentEmotion (strToLower text) ≠ none ∨
      questionEmotion (strToLower q) = none) :
    detectEmotionFromContent text "" = detectEmotionFromContent text q := by
  unfold detectEmotionFromContent
  by_cases hT : text = ""
  · rw [if_pos hT, if_pos hT]
  · rw [if_neg hT, if_neg hT]
    cases hC : contentEmotion (strToLower text) with
    | some e => rfl
    | none =>
      rcases h with h | h
      · exact absurd hC h
      · rw [h, show strToLower "" = "" from rfl,
          show questionEmotion "" = none from by decide]

/-- C4 (amended): consider a cache-eligible query (non-temporal, cache
enabled) whose first run misses the cache, with a healthy LLM and
collection, a successful write inside the cleanup window, a nonzero
write instant, and a second run inside the TTL.  If the first response
is a single line of single-space-separated words, and its emotion is
determined by the response content or the question carries no
greeting/goodbye cue, then the cache hit serves a byte-identical
response body with the same emotion.  (Multi-line or multi-space
responses are re-streamed differently — see the counterexample — and
the cached path loses the question context for emotion detection.) -/
theorem c4_cached_replay (env : Env) (st : CacheState) (now1 now2 : ℚ)
    (q f : String)
    (hTemp : isTemporalQuery env q = false)
    (hCache : env.cacheEnabled = true)
    (hW : env.writeOk = true)
    (hLlm : ∀ p, (env.llm p).error = none)
    (hSem : ∀ qq n, ∃ hits, env.collection.semanticQuery qq n = Except.ok hits)
    (hMiss : getCachedResponse env.ccfg st.fs now1
      (getCacheKey (ragCacheQuery env q) f) = none)
    (hClean : ¬(now1 - st.lastCleanup > env.ccfg.cleanupIntervalHours * 3600))
    (hNz : now1 ≠ 0)
    (hTTL : now2 - now1 ≤ env.ccfg.maxAgeDays * 86400)
    (hq : q ≠ "")
    (hLine : pyStrip (concatChunks (ragQuery env st now1 q f).chunks) =
      joinWords (pyWords (concatChunks (ragQuery env st now1 q f).chunks)))
    (hEmo : contentEmotion (strToLower (pyStrip (concatChunks
        (ragQuery env st now1 q f).chunks))) ≠ none ∨
      questionEmotion (strToLower q) = none) :
    routeClean (concatChunks
        (ragQuery env (ragQuery env st now1 q f).state now2 q f).chunks) =
      routeClean (concatChunks (ragQuery env st now1 q f).chunks) ∧
    (ragQuery env (ragQuery env st now1 q f).state now2 q f).emotion =
      (ragQuery env st now1 q f).emotion := by
  have hK : getCacheKey (ragCacheQuery env q) f ≠ "" := md5Hex_ne_empty _
  obtain ⟨rs, hRS⟩ := ragSearchPath_success env st now1
    (some (getCacheKey (ragCacheQuery env q) f)) true (preprocessText q) q f
    (extractEntities env.excfg (preprocessText q)) hSem
  obtain ⟨CH, hPR⟩ := processResults_success env st now1
    (getCacheKey (ragCacheQuery env q) f) true (preprocessText q) q f rs
    hK hLlm hCache hW hClean
  have h1 : ragQuery env st now1 q f =
      { chunks := CH
        emotion := (parseLlmResponse (concatChunks CH)
          (if q = "" then preprocessText q else q)).2
        cacheSafe := true
        state :=
          { fs := writeFs st.fs (getCacheKey (ragCacheQuery env q) f)
              (.json (JVal.obj (cacheResponseObj (concatChunks CH) f ++
                [("timestamp", JVal.num now1)])))
            lastCleanup := st.lastCleanup }
        consulted := true
        key := some (getCacheKey (ragCacheQuery env q) f)
        wrote := true
        errored := false } := by
    unfold ragQuery
    rw [hTemp]
    simp only [Bool.false_and, Bool.false_eq_true, if_false]
    rw [processRagQuery_eq_dispatch env st now1 q f hTemp hCache, hMiss]
    rw [show ragDispatch env st now1 (some (getCacheKey (ragCacheQuery env q) f)) true
        (preprocessText q) q f (extractEntities env.excfg (preprocessText q))
        (ragCachedText true (some (getCacheKey (ragCacheQuery env q) f)) none) =
      ragSearchPath env st now1 (some (getCacheKey (ragCacheQuery env q) f)) true
        (preprocessText q) q f (extractEntities env.excfg (preprocessText q)) from rfl]
    rw [hRS]
    exact hPR
  have h2 : ragQuery env
      (
        { fs := writeFs st.fs (getCacheKey (ragCacheQuery env q) f)
            (.json (JVal.obj (cacheResponseObj (concatChunks CH) f ++
              [("timestamp", JVal.num now1)])))
          lastCleanup := st.lastCleanup }
      ) now2 q f =
      { chunks := restreamCached (parseLlmResponse (concatChunks CH) "").1
        emotion := (parseLlmResponse (concatChunks CH) "").2
        cacheSafe := true
        state :=
          { fs := writeFs st.fs (getCacheKey (ragCacheQuery env q) f)
              (.json (JVal.obj (cacheResponseObj (concatChunks CH) f ++
                [("timestamp", JVal.num now1)])))
            lastCleanup := st.lastCleanup }
        consulted := true
        key := some (getCacheKey (ragCacheQuery env q) f)
        wrote := false
        errored := false } := by
    unfold ragQuery
    rw [hTemp]
    simp only [Bool.false_and, Bool.false_eq_true, if_false]
    rw [processRagQuery_eq_dispatch env _ now2 q f hTemp hCache]
    dsimp only
    rw [getCachedResponse_written env.ccfg st.fs now2 now1
      (getCacheKey (ragCacheQuery env q) f) (concatChunks CH) f hK hNz hTTL]
    rw [ragCachedText_written (some (getCacheKey (ragCacheQuery env q) f)) now1 (concatChunks CH) f]
    rfl
  rw [h1] at hLine hEmo ⊢
  dsimp only at hLine hEmo ⊢
  rw [h2]
  dsimp only
  constructor
  · have hRT : pyStrip (concatChunks (restreamCached
        (pyStrip (concatChunks CH)))) = pyStrip (concatChunks CH) := by
      rw [hLine]
      exact concat_restream_joinWords _ (pyWords_inv _)
    rw [show (parseLlmResponse (concatChunks CH) "").1 =
      pyStrip (concatChunks CH) from rfl]
    unfold routeClean
    rw [hRT]
  · rw [if_neg hq]
    rw [show (parseLlmResponse (concatChunks CH) "").2 =
        detectEmotionFromContent (pyStrip (concatChunks CH)) "" from rfl,
      show (parseLlmResponse (concatChunks CH) q).2 =
        detectEmotionFromContent (pyStrip (concatChunks CH)) q from rfl]
    exact detectEmotion_no_question_cue _ q hEmo

/-- An empty cache directory never produces a hit. -/
theorem getCachedResponse_nil (cfg : CacheCfg) (now : ℚ) (k : String) :
    getCachedResponse cfg [] now k = none := by
  unfold getCachedResponse
  split
  · rfl
  · rfl

/-- C4 witness: the baseline environment answers
`tell me about the campus` with the single-line chunk `Hello there.`;
the second request is served from the cache byte-for-byte with the
same emotion. -/
theorem c4_cached_replay_witness :
    routeClean (concatChunks (ragQuery envBase
        (ragQuery envBase stEmpty 5 "tell me about the campus" "web").state 6
        "tell me about the campus" "web").chunks) =
      routeClean (concatChunks (ragQuery envBase stEmpty 5
        "tell me about the campus" "web").chunks) ∧
    (ragQuery envBase (ragQuery envBase stEmpty 5 "tell me about the campus"
        "web").state 6 "tell me about the campus" "web").emotion =
      (ragQuery envBase stEmpty 5 "tell me about the campus" "web").emotion :=
  c4_cached_replay envBase stEmpty 5 6 "tell me about the campus" "web"
    (by with_unfolding_all decide)
    rfl
    rfl
    (fun _ => rfl)
    (fun _ _ => ⟨[], rfl⟩)
    (getCachedResponse_nil envBase.ccfg 5 _)
    (by with_unfolding_all decide)
    (by with_unfolding_all decide)
    (by with_unfolding_all decide)
    (by decide)
    (by with_unfolding_all decide)
    (Or.inr (by decide))

/-- Without a cache key, the retrieval arm leaves the cache state
untouched, writes nothing, and carries the flags through. -/
theorem ragSearchPath_none_frame (env : Env) (st : CacheState) (now : ℚ)
    (u : Bool) (cq oq f : String) (ents : List Entity) :
    (∀ o, ragSearchPath env st now none u cq oq f ents = .ok o →
      o.state = st ∧ o.wrote = false ∧ o.consulted = u ∧ o.key = none) ∧
    (∀ e, ragSearchPath env st now none u cq oq f ents = .error e →
      e.2.1 = u ∧ e.2.2 = none) := by
  constructor
  · intro o h
    unfold ragSearchPath at h
    cases hL : entityLoopRag env st now none u cq oq f ents with
    | some o2 =>
      rw [hL] at h
      dsimp only at h
      obtain ⟨rs, hrs⟩ :=
        entityLoopRag_shape env st now none u cq oq f ents o2 hL
      injection h with h2
      subst h2
      exact ⟨by rw [hrs]; rfl, by rw [hrs]; rfl, by rw [hrs]; rfl,
        by rw [hrs]; rfl⟩
    | none =>
      rw [hL] at h
      dsimp only at h
      cases hS : semanticSearch env.collection cq (env.scfg.DEFAULT_RESULTS * 3) with
      | error e2 =>
        rw [hS] at h
        exact absurd h (by simp)
      | ok results =>
        rw [hS] at h
        dsimp only at h
        injection h with h2
        subst h2
        exact ⟨rfl, rfl, rfl, rfl⟩
  · intro e h
    unfold ragSearchPath at h
    cases hL : entityLoopRag env st now none u cq oq f ents with
    | some o2 =>
      rw [hL] at h
      exact absurd h (by simp)
    | none =>
      rw [hL] at h
      dsimp only at h
      cases hS : semanticSearch env.collection cq (env.scfg.DEFAULT_RESULTS * 3) with
      | error e2 =>
        rw [hS] at h
        dsimp only at h
        injection h with h2
        subst h2
        exact ⟨rfl, rfl⟩
      | ok results =>
        rw [hS] at h
        exact absurd h (by simp)

/-- C1 (amended): `_is_temporal_query` requires the provider to be
enabled, so with it enabled a query the temporal detector classifies
temporal never touches the response cache: the cache is neither
consulted nor written, no cache key is computed, and the cache state
(hence the file under the query key) is unchanged; when the API key is
also present the query is served by the Perplexity path and the final
`cache_safe` flag is `false`.  (With the provider disabled, the
detector is bypassed and the query is cached like any static query —
see the counterexample.) -/
theorem c1_temporal_no_cache (env : Env) (st : CacheState) (now : ℚ)
    (question responseFormat : String)
    (hEnabled : env.perplexityEnabled = true)
    (hTemporal : needsCurrentInfo env.currentYear env.yearRange question = true) :
    (ragQuery env st now question responseFormat).consulted = false ∧
    (ragQuery env st now question responseFormat).wrote = false ∧
    (ragQuery env st now question responseFormat).state = st ∧
    (ragQuery env st now question responseFormat).key = none ∧
    lookupFs (ragQuery env st now question responseFormat).state.fs
      (getCacheKey question responseFormat) =
      lookupFs st.fs (getCacheKey question responseFormat) ∧
    (env.perplexityKey = true →
      (ragQuery env st now question responseFormat).cacheSafe = false) := by
  have hT : isTemporalQuery env question = true := by
    simp [isTemporalQuery, hEnabled, hTemporal]
  cases hKey : env.perplexityKey with
  | true =>
    have hA : perplexityAvailable env = true := by
      simp [perplexityAvailable, hEnabled, hKey]
    unfold ragQuery
    rw [hT, hA]
    simp only [Bool.and_self, if_true]
    unfold queryPerplexity
    cases env.perplexity question responseFormat <;> simp
  | false =>
    have hA : perplexityAvailable env = false := by
      simp [perplexityAvailable, hKey]
    have hPR : processRagQuery env st now question responseFormat =
        ragSearchPath env st now none false (preprocessText question) question
          responseFormat (extractEntities env.excfg (preprocessText question)) := by
      unfold processRagQuery
      rw [hT]
      simp only [Bool.not_true, Bool.and_false]
      rfl
    unfold ragQuery
    rw [hT, hA]
    simp only [Bool.and_false, Bool.false_eq_true, if_false]
    rw [hPR]
    obtain ⟨hok, herr⟩ := ragSearchPath_none_frame env st now false
      (preprocessText question) question responseFormat
      (extractEntities env.excfg (preprocessText question))
    cases hS : ragSearchPath env st now none false (preprocessText question)
        question responseFormat
        (extractEntities env.excfg (preprocessText question)) with
    | ok o =>
      dsimp only
      obtain ⟨h1, h2, h3, h4⟩ := hok o hS
      exact ⟨h3, h2, h1, h4, by rw [h1], fun hk => nomatch hk⟩
    | error e =>
      obtain ⟨m, c, k⟩ := e
      dsimp only
      obtain ⟨h1, h2⟩ := herr (m, c, k) hS
      exact ⟨h1, rfl, rfl, h2, rfl, fun hk => nomatch hk⟩

/-- C1 witness: a concrete temporal query against an enabled, available
provider. -/
theorem c1_temporal_no_cache_witness :
    (ragQuery envPerp stEmpty 5 "What is the latest news about NITK?" "web").consulted = false ∧
    (ragQuery envPerp stEmpty 5 "What is the latest news about NITK?" "web").wrote = false ∧
    (ragQuery envPerp stEmpty 5 "What is the latest news about NITK?" "web").state = stEmpty ∧
    (ragQuery envPerp stEmpty 5 "What is the latest news about NITK?" "web").key = none ∧
    lookupFs (ragQuery envPerp stEmpty 5 "What is the latest news about NITK?" "web").state.fs
      (getCacheKey "What is the latest news about NITK?" "web") =
      lookupFs stEmpty.fs (getCacheKey "What is the latest news about NITK?" "web") ∧
    (envPerp.perplexityKey = true →
      (ragQuery envPerp stEmpty 5 "What is the latest news about NITK?" "web").cacheSafe = false) :=
  c1_temporal_no_cache envPerp stEmpty 5 "What is the latest news about NITK?" "web"
    rfl (by with_unfolding_all decide)
